import Mathlib

/-!
# go-training: CRUD handlers over in-memory, relational and document stores

A shallow embedding of the request handlers of the repository's variants

* `go-echo-api-nodb/main.go`   (users kept in a Go map, identifiers from a counter),
* `restful-api-golang/main.go` (articles kept in a Go slice, random identifiers),
* `go-postgres-api/handlers/handlers.go`, `go-echo-api-postgres/handlers/handlers.go`
  (users kept in a relational table),
* `go-mongodb-api/handlers/handlers.go`, `go-echo-api-mongodb/handlers/handlers.go`
  (employees kept in a document store),

followed by the properties established about them.
-/

namespace GoTraining

/-! ## Go standard library: `strconv` -/

namespace strconv

/-- The two error kinds of `strconv.NumError` (`ErrSyntax`, `ErrRange`). -/
inductive NumError where
  | invalid
  | outOfRange
deriving DecidableEq, Repr

/-- Largest `uint64`. -/
def maxUint64 : Nat := 2 ^ 64 - 1

/-- The digit loop of `strconv.ParseUint(s, 10, 64)`: any byte that is not a decimal digit is a
syntax error with value 0; an overflow of `uint64` stops the scan with the largest value and a
range error. -/
def parseUintLoop : List Char → Nat → Nat × Option NumError
  | [], n => (n, none)
  | c :: cs, n =>
    if 48 ≤ c.toNat ∧ c.toNat ≤ 57 then
      if n ≥ maxUint64 / 10 + 1 then (maxUint64, some NumError.outOfRange)
      else if n * 10 + (c.toNat - 48) > maxUint64 then (maxUint64, some NumError.outOfRange)
      else parseUintLoop cs (n * 10 + (c.toNat - 48))
    else (0, some NumError.invalid)

/-- Base-10 `strconv.ParseUint` on 64 bits. -/
def ParseUint (s : List Char) : Nat × Option NumError :=
  if s = [] then (0, some NumError.invalid) else parseUintLoop s 0

/-- Removes one leading sign; the flag tells whether it was a minus. -/
def pickSign : List Char → Bool × List Char
  | '+' :: cs => (false, cs)
  | '-' :: cs => (true, cs)
  | cs => (false, cs)

/-- Base-10 `strconv.ParseInt` on 64 bits: on a syntax error the value is 0, on a range error the
value is clamped to the nearest bound of `int64`. -/
def ParseInt (s : List Char) : Int × Option NumError :=
  if s = [] then (0, some NumError.invalid)
  else
    match ParseUint (pickSign s).2 with
    | (_, some NumError.invalid) => (0, some NumError.invalid)
    | (un, _) =>
      if (pickSign s).1 = false ∧ un ≥ 2 ^ 63 then ((2 : Int) ^ 63 - 1, some NumError.outOfRange)
      else if (pickSign s).1 = true ∧ un > 2 ^ 63 then (-(2 : Int) ^ 63, some NumError.outOfRange)
      else if (pickSign s).1 = true then (-(un : Int), none)
      else ((un : Int), none)

/-- Go `strconv.Atoi` on a 64-bit platform: the value and the error, if any. Its fast path for
short strings computes the same result as `ParseInt(s, 10, 0)`. -/
def Atoi (s : String) : Int × Option NumError := ParseInt s.toList

/-- Go `strconv.Itoa` on a non-negative value. -/
def Itoa (n : Nat) : String := toString n

end strconv

/-- Arithmetic of the Go type `int` on a 64-bit platform: results wrap around. -/
def wrapInt (x : Int) : Int := (x + 2 ^ 63) % 2 ^ 64 - 2 ^ 63

/-! ## `go-echo-api-nodb`: users in a map -/

namespace EchoNodb

/-- The struct `user` of `go-echo-api-nodb/main.go`. -/
structure user where
  ID : Int
  Name : String
deriving DecidableEq, Repr

/-- The Go map `map[int]*user` as an association list with at most one entry per key. Every
pointer stored in the map is referenced from the map only (each create allocates its own
struct), so the pointed-to structs are kept by value. -/
abbrev UserMap := List (Int × user)

/-- Map read `m[k]`: the stored pointer, or nil (`none`) when the key is absent. -/
def mapGet : UserMap → Int → Option user
  | [], _ => none
  | (k', v) :: rest, k => if k' = k then some v else mapGet rest k

/-- Builtin `delete(m, k)`. -/
def mapDelete (m : UserMap) (k : Int) : UserMap := m.filter (fun e => decide (e.1 ≠ k))

/-- Map write `m[k] = v`: any entry under `k` is replaced. -/
def mapSet (m : UserMap) (k : Int) (v : user) : UserMap := (k, v) :: mapDelete m k

/-- Write through the pointer stored under `k`: `m[k].Name = name`. -/
def mapSetName (m : UserMap) (k : Int) (name : String) : UserMap :=
  m.map (fun e => if e.1 = k then (e.1, { e.2 with Name := name }) else e)

/-- The package-level variables `users` and `seq`. -/
structure Store where
  users : UserMap
  seq : Int
deriving DecidableEq, Repr

/-- The initial values of the package-level variables. -/
def Store.initial : Store := { users := [], seq := 1 }

/-- A state with two stored users, reached from the initial one by two creates. -/
def Store.sample : Store :=
  { users := [(2, { ID := 2, Name := "bo" }), (1, { ID := 1, Name := "al" })], seq := 3 }

/-- A state in which a user is stored under the key 0, reached from the initial one by one
create whose body carries the id 0. -/
def Store.withZero : Store := { users := [(0, { ID := 0, Name := "zed" })], seq := 2 }

/-- What a successful `Context.Bind` writes into a `*user`: the fields found in the request,
each of them optional. -/
structure BindData where
  id : Option Int
  name : Option String
deriving DecidableEq, Repr

/-- The part of an HTTP request the handlers look at: the path parameter `id` (empty when the
route has none) and the result of binding the body (`none` when `Bind` returns an error). -/
structure Request where
  param : String
  bind : Option BindData
deriving DecidableEq, Repr

/-- How a handler ends. -/
inductive Reply where
  /-- `c.JSON(status, u)` with `u : *user`; `none` is the nil pointer, encoded as `null`. -/
  | json (status : Nat) (body : Option user)
  /-- `c.JSON(status, users)`. -/
  | jsonAll (status : Nat) (body : UserMap)
  /-- `c.NoContent(status)`. -/
  | noContent (status : Nat)
  /-- The handler returned the error of `Bind`. -/
  | bindError
  /-- A run-time panic (nil pointer dereference); the Recover middleware turns it into an
  error response. -/
  | panicked
deriving DecidableEq, Repr

/-- Effect of `c.Bind(u)` on the struct `u` when it succeeds. -/
def bindInto (u : user) (d : BindData) : user :=
  { ID := d.id.getD u.ID, Name := d.name.getD u.Name }

/-- Handler `createUser`. -/
def createUser (st : Store) (req : Request) : Reply × Store :=
  match req.bind with
  | none => (Reply.bindError, st)
  | some d =>
    let u := bindInto { ID := st.seq, Name := "" } d
    (Reply.json 201 (some u), { users := mapSet st.users u.ID u, seq := wrapInt (st.seq + 1) })

/-- Handler `getUser`; the error of `Atoi` is discarded. -/
def getUser (st : Store) (req : Request) : Reply × Store :=
  (Reply.json 200 (mapGet st.users (strconv.Atoi req.param).1), st)

/-- Handler `updateUser`. When `users[id]` is nil the assignment `users[id].Name = u.Name`
dereferences a nil pointer. -/
def updateUser (st : Store) (req : Request) : Reply × Store :=
  match req.bind with
  | none => (Reply.bindError, st)
  | some d =>
    let u := bindInto { ID := 0, Name := "" } d
    let id := (strconv.Atoi req.param).1
    match mapGet st.users id with
    | none => (Reply.panicked, st)
    | some _ =>
      let users := mapSetName st.users id u.Name
      (Reply.json 200 (mapGet users id), { st with users := users })

/-- Handler `deleteUser`. -/
def deleteUser (st : Store) (req : Request) : Reply × Store :=
  (Reply.noContent 204, { st with users := mapDelete st.users (strconv.Atoi req.param).1 })

/-- Handler `getAllUsers`. -/
def getAllUsers (st : Store) (_req : Request) : Reply × Store :=
  (Reply.jsonAll 200 st.users, st)

/-- The routes that `main` registers. -/
inductive Route where
  /-- `GET /users` -/
  | getUsers
  /-- `POST /users` -/
  | postUsers
  /-- `GET /users/:id` -/
  | getUsersId
  /-- `PUT /users/:id` -/
  | putUsersId
  /-- `DELETE /users/:id` -/
  | deleteUsersId
deriving DecidableEq, Repr

/-- One request served by the handler that `main` registers for its route. -/
def serve (st : Store) (op : Route × Request) : Reply × Store :=
  match op.1 with
  | Route.getUsers => getAllUsers st op.2
  | Route.postUsers => createUser st op.2
  | Route.getUsersId => getUser st op.2
  | Route.putUsersId => updateUser st op.2
  | Route.deleteUsersId => deleteUser st op.2

/-- The state after serving the requests one after another. -/
def serveAll : Store → List (Route × Request) → Store
  | st, [] => st
  | st, op :: rest => serveAll (serve st op).2 rest

/-- Largest value of the Go type `int` on a 64-bit platform. -/
def maxInt : Int := 2 ^ 63 - 1

/-- Smallest value of the Go type `int` on a 64-bit platform. -/
def minInt : Int := -(2 ^ 63)

/-- Every key of the users map is smaller than `seq`. -/
abbrev KeysBelowSeq (st : Store) : Prop := ∀ e ∈ st.users, e.1 < st.seq

/-- Every user of the map has an `ID` field equal to the key it is stored under. -/
abbrev KeyedByID (m : UserMap) : Prop := ∀ e ∈ m, e.2.ID = e.1

/-- The request is not a create whose body carries an id field. -/
abbrev carriesNoId (op : Route × Request) : Prop :=
  op.1 = Route.postUsers → op.2.bind.bind (fun d => d.id) = none

/-- Number of create requests among the given ones. -/
def createCount (ops : List (Route × Request)) : Nat :=
  ops.countP (fun op => decide (op.1 = Route.postUsers))

/-- A state whose counter holds the largest `int`. -/
def Store.atMaxInt : Store := { users := [], seq := maxInt }

/-- Three requests: a create without id, the deletion of user 3 and a listing. -/
def sampleRequests : List (Route × Request) :=
  [ (Route.postUsers, { param := "", bind := some { id := none, name := some "cy" } }),
    (Route.deleteUsersId, { param := "3", bind := none }),
    (Route.getUsers, { param := "", bind := none }) ]

end EchoNodb

/-! ## `restful-api-golang`: articles in a slice -/

namespace RestfulApi

/-- The struct `Author`. -/
structure Author where
  Name : String
  Email : String
deriving DecidableEq, Repr

/-- The struct `Article`; the field `Author` is a pointer, nil being `none`. -/
structure Article where
  Id : String
  Title : String
  Desc : String
  Content : String
  Author : Option Author
deriving DecidableEq, Repr

/-- The part of an HTTP request the handlers look at: the route variable `id` (empty when the
route has none) and the value that `json.Unmarshal(reqBody, &article)` leaves in the local
`article` (the zero `Article` when nothing could be decoded), together with whether it reported
an error. The handlers discard that error. -/
structure Request where
  id : String
  article : Article
  unmarshalFailed : Bool
deriving DecidableEq, Repr

/-- The articles that `main` puts in `Articles` before serving. -/
def Articles.initial : List Article :=
  [ { Id := "1", Title := "Hello", Desc := "Article Description", Content := "Article Content",
      Author := some { Name := "Chris Nolan", Email := "nolan@gmail.com" } },
    { Id := "2", Title := "Hello 2", Desc := "Article Description", Content := "Article Content",
      Author := some { Name := "Dave Fincher", Email := "davef@gmail.com" } } ]

/-- A request for the route variable `id` whose body decodes to an article with the Id
`bodyId` and the title `New`. -/
def Request.sample (id bodyId : String) : Request :=
  { id := id,
    article := { Id := bodyId, Title := "New", Desc := "", Content := "", Author := none },
    unmarshalFailed := false }

/-- A Go slice value seen from its first cell: the cells of the backing array and the length.
The capacity is the number of cells. -/
structure Slice where
  arr : List Article
  len : Nat
deriving DecidableEq, Repr

/-- The elements of a slice. -/
def Slice.toList (s : Slice) : List Article := s.arr.take s.len

/-- The slice whose backing array holds exactly the given elements. -/
def Slice.ofList (l : List Article) : Slice := { arr := l, len := l.length }

/-- The statement `Articles = append(Articles[:index], Articles[index+1:]...)`.
`Articles[:index]` needs `index ≤ cap`, `Articles[index+1:]` needs `index+1 ≤ len`; otherwise
the slice expression panics (`none`). The result fits the capacity, so the cells
`index+1 .. len-1` are copied one place down inside the same backing array, and the cell
`len-1` and all later ones keep their values. -/
def removeAt (s : Slice) (index : Nat) : Option Slice :=
  if index ≤ s.arr.length ∧ index + 1 ≤ s.len then
    some { arr := s.arr.take index ++ (s.arr.drop (index + 1)).take (s.len - (index + 1))
                    ++ s.arr.drop (s.len - 1),
           len := s.len - 1 }
  else none

/-- One iteration of `for index, article := range Articles` with the body
`if article.Id == id { Articles = append(Articles[:index], Articles[index+1:]...) }`:
the element is read from the cell `index` of the backing array as it is now (the cell exists:
the array has at least as many cells as the loop has iterations).
`Except.error s` is a panic raised while `Articles` has the value `s`. -/
def rangeStep (id : String) (s : Slice) (index : Nat) : Except Slice Slice :=
  match s.arr[index]? with
  | none => Except.error s
  | some article =>
    if article.Id = id then
      match removeAt s index with
      | none => Except.error s
      | some s' => Except.ok s'
    else Except.ok s

/-- The remaining `k` iterations of the range loop, starting at `index`. The range expression
is evaluated once, before the loop, so the number of iterations is the length that `Articles`
had at that moment, whatever the body does to `Articles`. -/
def rangeLoop (id : String) : Nat → Nat → Slice → Except Slice Slice
  | 0, _, s => Except.ok s
  | k + 1, index, s =>
    match rangeStep id s index with
    | Except.error s' => Except.error s'
    | Except.ok s' => rangeLoop id k (index + 1) s'

/-- The whole remove-while-ranging loop of `updateArticle` and `deleteArticle` on the current
value of `Articles`. Cells of the backing array beyond the length are never read or written by
the loop, so the backing array is taken to end with the slice. -/
def removeLoop (id : String) (articles : List Article) : Except Slice Slice :=
  rangeLoop id articles.length 0 (Slice.ofList articles)

/-- How a handler ends. -/
inductive Reply where
  /-- `json.NewEncoder(w).Encode(article)`, once per listed article. -/
  | article (written : List Article)
  /-- `json.NewEncoder(w).Encode(Articles)`. -/
  | articles (body : List Article)
  /-- Nothing is written. -/
  | empty
  /-- A run-time panic (slice bounds out of range). -/
  | panicked
deriving DecidableEq, Repr

/-- Handler `returnSingleArticle`: every article with the requested Id is written. -/
def returnSingleArticle (articles : List Article) (req : Request) : Reply × List Article :=
  (Reply.article (articles.filter (fun a => decide (a.Id = req.id))), articles)

/-- Handler `createNewArticle`; `r` is the value returned by `rand.Intn(1000000)`. -/
def createNewArticle (articles : List Article) (req : Request) (r : Nat) :
    Reply × List Article :=
  let article := { req.article with Id := strconv.Itoa r }
  (Reply.article [article], articles ++ [article])

/-- Handler `updateArticle`. -/
def updateArticle (articles : List Article) (req : Request) : Reply × List Article :=
  match removeLoop req.id articles with
  | Except.error s => (Reply.panicked, s.toList)
  | Except.ok s => (Reply.articles (s.toList ++ [req.article]), s.toList ++ [req.article])

/-- Handler `deleteArticle`. -/
def deleteArticle (articles : List Article) (req : Request) : Reply × List Article :=
  match removeLoop req.id articles with
  | Except.error s => (Reply.panicked, s.toList)
  | Except.ok s => (Reply.empty, s.toList)

end RestfulApi

/-! ## The relational variants: users in the table `users` -/

namespace Sql

/-- A row of the table `users`, by column name. `SELECT *` is taken to list the columns in the
order in which the handlers scan them: `userid, name, age, location`. -/
structure Row where
  userid : Int
  name : String
  age : Int
  location : String
deriving DecidableEq, Repr

/-- What `createConnection` meets: the connection is established, or `godotenv.Load` fails
(`log.Fatalf`), or `sql.Open`/`db.Ping` fails (`panic`). -/
inductive Conn where
  | up
  | envMissing
  | unreachable
deriving DecidableEq, Repr

/-- The database as the handlers see it: the state of the connection, whether the driver
fails the statement with an error of its own, and the rows of `users`. -/
structure Db where
  conn : Conn
  stmtFails : Bool
  table : List Row
deriving DecidableEq, Repr

/-- A reachable database with two users. -/
def Db.sample : Db :=
  { conn := Conn.up, stmtFails := false,
    table := [ { userid := 1, name := "al", age := 30, location := "Hanoi" },
               { userid := 2, name := "bo", age := 25, location := "Hue" } ] }

/-- Errors of `database/sql` that the handlers tell apart. -/
inductive SqlError where
  | ErrNoRows
  | other
deriving DecidableEq, Repr

/-- How a Go function ends: it returns, or the process exits in `log.Fatalf`, or it panics. -/
inductive Outcome (α : Type) where
  | returned (a : α)
  | fatal
  | panicked
deriving DecidableEq, Repr

/-- `db.QueryRow("SELECT * FROM users WHERE userid=$1", id)` followed by `Scan`: the first
matching row, or `ErrNoRows`. -/
def queryRow (db : Db) (id : Int) : Except SqlError Row :=
  if db.stmtFails then Except.error SqlError.other
  else
    match db.table.find? (fun r => decide (r.userid = id)) with
    | none => Except.error SqlError.ErrNoRows
    | some r => Except.ok r

/-- `db.Exec("UPDATE users SET name=$2, location=$3, age=$4 WHERE userid=$1", ...)`: the new
rows and the number of rows affected. -/
def execUpdate (db : Db) (id : Int) (name location : String) (age : Int) :
    Except SqlError (List Row × Int) :=
  if db.stmtFails then Except.error SqlError.other
  else
    Except.ok
      (db.table.map (fun r =>
          if r.userid = id then { r with name := name, location := location, age := age }
          else r),
        ((db.table.filter (fun r => decide (r.userid = id))).length : Int))

/-- `db.Exec("DELETE FROM users WHERE userid=$1", id)`: the new rows and the number of rows
affected. -/
def execDelete (db : Db) (id : Int) : Except SqlError (List Row × Int) :=
  if db.stmtFails then Except.error SqlError.other
  else
    Except.ok
      (db.table.filter (fun r => decide (r.userid ≠ id)),
        ((db.table.filter (fun r => decide (r.userid = id))).length : Int))

/-- The struct `models.User`. The package `go-echo-api-postgres/models` is used with the same
four fields. -/
structure User where
  ID : Int
  Name : String
  Location : String
  Age : Int
deriving DecidableEq, Repr

/-- The zero value of `models.User`. -/
def User.zero : User := { ID := 0, Name := "", Location := "", Age := 0 }

/-- The fields of a JSON body decoded into a `models.User`, each of them optional. -/
structure BodyData where
  id : Option Int
  name : Option String
  location : Option String
  age : Option Int
deriving DecidableEq, Repr

/-- Decoding a body into `var user models.User`: absent fields keep the zero value. -/
def decodeInto (u : User) (d : BodyData) : User :=
  { ID := d.id.getD u.ID, Name := d.name.getD u.Name,
    Location := d.location.getD u.Location, Age := d.age.getD u.Age }

/-- The part of an HTTP request the handlers look at: the route variable `id` and the decoded
body (`none` when decoding or binding returns an error). -/
structure Request where
  param : String
  body : Option BodyData
deriving DecidableEq, Repr

/-- The struct `response`. -/
structure response where
  ID : Int
  Message : String
deriving DecidableEq, Repr

/-- What a handler sends. -/
inductive Reply where
  /-- A `models.User` encoded as JSON. -/
  | user (status : Nat) (u : User)
  /-- A `response` encoded as JSON. -/
  | res (status : Nat) (r : response)
  /-- The handler returned the error of `Bind`. -/
  | bindError
deriving DecidableEq, Repr

end Sql

/-! ### `go-postgres-api` (gorilla/mux) -/

namespace GoPostgresApi
open Sql

/-- Function `getUser`. -/
def getUser (db : Db) (id : Int) : Outcome (User × Option SqlError) :=
  match db.conn with
  | Conn.envMissing => Outcome.fatal
  | Conn.unreachable => Outcome.panicked
  | Conn.up =>
    match queryRow db id with
    | Except.error SqlError.ErrNoRows => Outcome.returned (User.zero, none)
    | Except.ok r =>
      Outcome.returned ({ ID := r.userid, Name := r.name, Location := r.location, Age := r.age },
        none)
    | Except.error SqlError.other => Outcome.fatal

/-- Function `updateUser`: the number of rows affected and the database afterwards. -/
def updateUser (db : Db) (id : Int) (user : User) : Outcome Int × Db :=
  match db.conn with
  | Conn.envMissing => (Outcome.fatal, db)
  | Conn.unreachable => (Outcome.panicked, db)
  | Conn.up =>
    match execUpdate db id user.Name user.Location user.Age with
    | Except.error _ => (Outcome.fatal, db)
    | Except.ok (rows, rowsAffected) => (Outcome.returned rowsAffected, { db with table := rows })

/-- Function `deleteUser`: the number of rows affected and the database afterwards. -/
def deleteUser (db : Db) (id : Int) : Outcome Int × Db :=
  match db.conn with
  | Conn.envMissing => (Outcome.fatal, db)
  | Conn.unreachable => (Outcome.panicked, db)
  | Conn.up =>
    match execDelete db id with
    | Except.error _ => (Outcome.fatal, db)
    | Except.ok (rows, rowsAffected) => (Outcome.returned rowsAffected, { db with table := rows })

/-- Handler `GetUser`. -/
def GetUser (db : Db) (req : Request) : Outcome Reply × Db :=
  match strconv.Atoi req.param with
  | (_, some _) => (Outcome.fatal, db)
  | (id, none) =>
    match getUser db id with
    | Outcome.fatal => (Outcome.fatal, db)
    | Outcome.panicked => (Outcome.panicked, db)
    | Outcome.returned (_, some _) => (Outcome.fatal, db)
    | Outcome.returned (user, none) => (Outcome.returned (Reply.user 200 user), db)

/-- Handler `UpdateUser`. -/
def UpdateUser (db : Db) (req : Request) : Outcome Reply × Db :=
  match strconv.Atoi req.param with
  | (_, some _) => (Outcome.fatal, db)
  | (id, none) =>
    match req.body with
    | none => (Outcome.fatal, db)
    | some d =>
      match updateUser db id (decodeInto User.zero d) with
      | (Outcome.fatal, db') => (Outcome.fatal, db')
      | (Outcome.panicked, db') => (Outcome.panicked, db')
      | (Outcome.returned updatedRows, db') =>
        (Outcome.returned (Reply.res 200
            { ID := id,
              Message := "User updated successfully. Total rows/records affected "
                ++ toString updatedRows }),
          db')

/-- Handler `DeleteUser`. -/
def DeleteUser (db : Db) (req : Request) : Outcome Reply × Db :=
  match strconv.Atoi req.param with
  | (_, some _) => (Outcome.fatal, db)
  | (id, none) =>
    match deleteUser db id with
    | (Outcome.fatal, db') => (Outcome.fatal, db')
    | (Outcome.panicked, db') => (Outcome.panicked, db')
    | (Outcome.returned deletedRows, db') =>
      (Outcome.returned (Reply.res 200
          { ID := id,
            Message := "User deleted successfully. Total rows/records affected "
              ++ toString deletedRows }),
        db')

end GoPostgresApi

/-! ### `go-echo-api-postgres` (echo) -/

namespace GoEchoApiPostgres
open Sql

/-- Function `getUser`. -/
def getUser (db : Db) (id : Int) : Outcome (User × Option SqlError) :=
  match db.conn with
  | Conn.envMissing => Outcome.fatal
  | Conn.unreachable => Outcome.panicked
  | Conn.up =>
    match queryRow db id with
    | Except.error SqlError.ErrNoRows => Outcome.returned (User.zero, none)
    | Except.ok r =>
      Outcome.returned ({ ID := r.userid, Name := r.name, Location := r.location, Age := r.age },
        none)
    | Except.error SqlError.other => Outcome.fatal

/-- Function `updateUser`: the number of rows affected and the database afterwards. -/
def updateUser (db : Db) (id : Int) (user : User) : Outcome Int × Db :=
  match db.conn with
  | Conn.envMissing => (Outcome.fatal, db)
  | Conn.unreachable => (Outcome.panicked, db)
  | Conn.up =>
    match execUpdate db id user.Name user.Location user.Age with
    | Except.error _ => (Outcome.fatal, db)
    | Except.ok (rows, rowsAffected) => (Outcome.returned rowsAffected, { db with table := rows })

/-- Function `deleteUser`: the number of rows affected and the database afterwards. -/
def deleteUser (db : Db) (id : Int) : Outcome Int × Db :=
  match db.conn with
  | Conn.envMissing => (Outcome.fatal, db)
  | Conn.unreachable => (Outcome.panicked, db)
  | Conn.up =>
    match execDelete db id with
    | Except.error _ => (Outcome.fatal, db)
    | Except.ok (rows, rowsAffected) => (Outcome.returned rowsAffected, { db with table := rows })

/-- Handler `GetUser`. -/
def GetUser (db : Db) (req : Request) : Outcome Reply × Db :=
  match strconv.Atoi req.param with
  | (_, some _) => (Outcome.fatal, db)
  | (id, none) =>
    match getUser db id with
    | Outcome.fatal => (Outcome.fatal, db)
    | Outcome.panicked => (Outcome.panicked, db)
    | Outcome.returned (_, some _) => (Outcome.fatal, db)
    | Outcome.returned (user, none) => (Outcome.returned (Reply.user 200 user), db)

/-- Handler `UpdateUser`: the body is bound first, and the error of `Atoi` is discarded. -/
def UpdateUser (db : Db) (req : Request) : Outcome Reply × Db :=
  match req.body with
  | none => (Outcome.returned Reply.bindError, db)
  | some d =>
    match updateUser db (strconv.Atoi req.param).1 (decodeInto User.zero d) with
    | (Outcome.fatal, db') => (Outcome.fatal, db')
    | (Outcome.panicked, db') => (Outcome.panicked, db')
    | (Outcome.returned updatedRows, db') =>
      (Outcome.returned (Reply.res 200
          { ID := (strconv.Atoi req.param).1,
            Message := "User updated successfully!!! Total rows/records affected: "
              ++ toString updatedRows }),
        db')

/-- Handler `DeleteUser`: the number of rows affected is dropped. -/
def DeleteUser (db : Db) (req : Request) : Outcome Reply × Db :=
  match strconv.Atoi req.param with
  | (_, some _) => (Outcome.fatal, db)
  | (id, none) =>
    match deleteUser db id with
    | (Outcome.fatal, db') => (Outcome.fatal, db')
    | (Outcome.panicked, db') => (Outcome.panicked, db')
    | (Outcome.returned _, db') =>
      (Outcome.returned (Reply.res 200
          { ID := id,
            Message := "User with ID " ++ toString id ++ " is successfully deleted!!!" }),
        db')

end GoEchoApiPostgres

/-! ## The document-store variants: employees in the collection `employees` -/

namespace Mongo

/-- The type `primitive.ObjectID`: twelve bytes. -/
abbrev ObjectID := List Nat

/-- The zero value `primitive.NilObjectID`. -/
def NilObjectID : ObjectID := List.replicate 12 0

/-- Value of a hexadecimal digit, in either case. -/
def hexVal (c : Char) : Option Nat :=
  if 48 ≤ c.toNat ∧ c.toNat ≤ 57 then some (c.toNat - 48)
  else if 97 ≤ c.toNat ∧ c.toNat ≤ 102 then some (c.toNat - 87)
  else if 65 ≤ c.toNat ∧ c.toNat ≤ 70 then some (c.toNat - 55)
  else none

/-- Go `hex.DecodeString`: two digits per byte, `none` on any other input. -/
def decodeHex : List Char → Option (List Nat)
  | [] => some []
  | [_] => none
  | a :: b :: rest =>
    match hexVal a, hexVal b, decodeHex rest with
    | some x, some y, some bytes => some ((16 * x + y) :: bytes)
    | _, _, _ => none

/-- Driver function `primitive.ObjectIDFromHex`: the identifier and whether an error is
returned. A string is accepted when it consists of 24 hexadecimal digits; otherwise the
result is `NilObjectID` with an error. (A string with a character outside ASCII is refused
both here and by the driver, by the length test or by the digit test.) -/
def ObjectIDFromHex (s : String) : ObjectID × Bool :=
  if s.toList.length = 24 then
    match decodeHex s.toList with
    | some bytes => (bytes, false)
    | none => (NilObjectID, true)
  else (NilObjectID, true)

/-- The struct `models.Employee` of `go-echo-api-mongodb/models/models.go`; every field is
tagged `omitempty` for JSON and for BSON. The package `go-mongodb-api/models` is used with the
same fields and is taken to carry the same tags. -/
structure Employee where
  ID : ObjectID
  Name : String
  Department : String
  Level : String
  Description : String
deriving DecidableEq, Repr

/-- The zero value of `models.Employee`. -/
def Employee.zero : Employee :=
  { ID := NilObjectID, Name := "", Department := "", Level := "", Description := "" }

/-- A BSON document over the keys of an employee; `none` means that the key is not in the
document. -/
structure Document where
  _id : Option ObjectID
  name : Option String
  department : Option String
  level : Option String
  description : Option String
deriving DecidableEq, Repr

/-- The document without any key. -/
def Document.empty : Document :=
  { _id := none, name := none, department := none, level := none, description := none }

/-- How the driver encodes a `models.Employee` (as a filter, as the value of `$set`, or as a
document to insert): because of `omitempty`, a field holding its zero value (the empty string,
the zero ObjectID) is left out. -/
def marshal (e : Employee) : Document :=
  { _id := if e.ID = NilObjectID then none else some e.ID,
    name := if e.Name = "" then none else some e.Name,
    department := if e.Department = "" then none else some e.Department,
    level := if e.Level = "" then none else some e.Level,
    description := if e.Description = "" then none else some e.Description }

/-- The struct `mongo.UpdateResult` (counts only). -/
structure UpdateResult where
  MatchedCount : Int
  ModifiedCount : Int
  UpsertedCount : Int
deriving DecidableEq, Repr

/-- The struct `mongo.DeleteResult`. -/
structure DeleteResult where
  DeletedCount : Int
deriving DecidableEq, Repr

/-- The pair `(*mongo.InsertOneResult, error)` returned by `InsertOne`: the `InsertedID` of
the result (`none` when the result is nil) and the error (`none` when it is nil). -/
structure InsertAnswer where
  result : Option ObjectID
  err : Option String
deriving DecidableEq, Repr

/-- The backend as the handlers meet it: whether `connectToDatabase` gets through (it ends
the process in `log.Fatal` otherwise) and what the driver answers to each operation on the
collection `employees`, given the documents it is sent. An `Except.error` is a non-nil error
with its text. The deferred `disconnectDatabase` issues no operation on the collection and is
left out. -/
structure Driver where
  up : Bool
  findOne : Document → Except String Employee
  updateOne : Document → Document → Except String UpdateResult
  deleteOne : Document → Except String DeleteResult
  insertOne : Document → InsertAnswer

/-- An operation issued on the collection, with the documents the driver sends. -/
inductive Call where
  | FindOne (filter : Document)
  | UpdateOne (filter : Document) (set : Document)
  | DeleteOne (filter : Document)
  | InsertOne (doc : Document)
deriving DecidableEq, Repr

/-- The fields of a JSON body decoded into a `models.Employee`, each of them optional. -/
structure BodyData where
  id : Option ObjectID
  name : Option String
  department : Option String
  level : Option String
  description : Option String
deriving DecidableEq, Repr

/-- The request body as decoding sees it: the fields that are written into the struct, and
whether decoding (`Decode`, `Bind`) returns an error. A body that is not JSON writes no field
and returns an error. -/
structure Body where
  fields : BodyData
  failed : Bool
deriving DecidableEq, Repr

/-- The part of an HTTP request the handlers look at. -/
structure Request where
  param : String
  body : Body
deriving DecidableEq, Repr

/-- Decoding a body into `var employee models.Employee`: absent fields keep the zero value. -/
def decodeInto (e : Employee) (d : BodyData) : Employee :=
  { ID := d.id.getD e.ID, Name := d.name.getD e.Name,
    Department := d.department.getD e.Department, Level := d.level.getD e.Level,
    Description := d.description.getD e.Description }

/-- The struct `response` of the echo variant. -/
structure response where
  ID : ObjectID
  Message : String
deriving DecidableEq, Repr

/-- What a handler sends. -/
inductive Reply where
  /-- A `models.Employee` encoded as JSON. -/
  | employee (status : Nat) (e : Employee)
  /-- A `mongo.UpdateResult` encoded as JSON. -/
  | updateResult (status : Nat) (r : UpdateResult)
  /-- A `mongo.DeleteResult` encoded as JSON. -/
  | deleteResult (status : Nat) (r : DeleteResult)
  /-- A `response` encoded as JSON. -/
  | res (status : Nat) (r : response)
  /-- The gorilla variant: `WriteHeader(status)` and a body with the text of the error. -/
  | message (status : Nat) (text : String)
  /-- The echo variant: the handler returns the error of the driver. -/
  | error (text : String)
  /-- The echo variant: the handler returns the error of `Bind`. -/
  | bindError
deriving DecidableEq, Repr

/-- How a handler ends: it replies, or the process exits in `log.Fatal`, or it panics. -/
inductive Outcome where
  | returned (r : Reply)
  | fatal
  | panicked
deriving DecidableEq, Repr

/-- A backend that holds one employee and answers every operation without error. -/
def Driver.sample : Driver :=
  { up := true,
    findOne := fun _ =>
      Except.ok { ID := List.replicate 12 1, Name := "al", Department := "IT", Level := "L1",
                  Description := "" },
    updateOne := fun _ _ =>
      Except.ok { MatchedCount := 1, ModifiedCount := 1, UpsertedCount := 0 },
    deleteOne := fun _ => Except.ok { DeletedCount := 1 },
    insertOne := fun _ => { result := some (List.replicate 12 2), err := none } }

/-- A backend whose `InsertOne` fails: it returns an error and no result. -/
def Driver.insertFails : Driver :=
  { Driver.sample with
    insertOne := fun _ => { result := none, err := some "write exception" } }

/-- A body that decodes: the name is present with the empty string, the level is `L2`, the
other fields are absent. -/
def Body.sample : Body :=
  { fields := { id := none, name := some "", department := none, level := some "L2",
                description := none },
    failed := false }

end Mongo

/-! ### `go-mongodb-api` (gorilla/mux) -/

namespace GoMongodbApi
open Mongo

/-- Handler `GetEmployeeByID`: the outcome and the operations issued. The error of
`ObjectIDFromHex` is discarded. -/
def GetEmployeeByID (drv : Driver) (req : Request) : Outcome × List Call :=
  if drv.up = false then (Outcome.fatal, [])
  else
    let id := (ObjectIDFromHex req.param).1
    let filter := marshal { Employee.zero with ID := id }
    match drv.findOne filter with
    | Except.error text => (Outcome.returned (Reply.message 500 text), [Call.FindOne filter])
    | Except.ok employee => (Outcome.returned (Reply.employee 200 employee), [Call.FindOne filter])

/-- Handler `DeleteEmployeeByID`. -/
def DeleteEmployeeByID (drv : Driver) (req : Request) : Outcome × List Call :=
  if drv.up = false then (Outcome.fatal, [])
  else
    let id := (ObjectIDFromHex req.param).1
    let filter := marshal { Employee.zero with ID := id }
    match drv.deleteOne filter with
    | Except.error text => (Outcome.returned (Reply.message 500 text), [Call.DeleteOne filter])
    | Except.ok result => (Outcome.returned (Reply.deleteResult 200 result), [Call.DeleteOne filter])

/-- Handler `AddEmployee`. The errors of `Decode` and of `InsertOne` are discarded; when the
result of `InsertOne` is nil, reading `result.InsertedID` dereferences a nil pointer. -/
def AddEmployee (drv : Driver) (req : Request) : Outcome × List Call :=
  if drv.up = false then (Outcome.fatal, [])
  else
    let employee := decodeInto Employee.zero req.body.fields
    match (drv.insertOne (marshal employee)).result with
    | none => (Outcome.panicked, [Call.InsertOne (marshal employee)])
    | some id =>
      (Outcome.returned (Reply.employee 200 { employee with ID := id }),
        [Call.InsertOne (marshal employee)])

/-- Handler `UpdateEmployeeById`. The errors of `ObjectIDFromHex` and of `Decode` are
discarded. -/
def UpdateEmployeeById (drv : Driver) (req : Request) : Outcome × List Call :=
  if drv.up = false then (Outcome.fatal, [])
  else
    let id := (ObjectIDFromHex req.param).1
    let employee := decodeInto Employee.zero req.body.fields
    let filter := marshal { Employee.zero with ID := id }
    match drv.updateOne filter (marshal employee) with
    | Except.error text =>
      (Outcome.returned (Reply.message 500 text), [Call.UpdateOne filter (marshal employee)])
    | Except.ok result =>
      (Outcome.returned (Reply.updateResult 200 result),
        [Call.UpdateOne filter (marshal employee)])

end GoMongodbApi

/-! ### `go-echo-api-mongodb` (echo) -/

namespace GoEchoApiMongodb
open Mongo

/-- Handler `GetEmployeeByID`: the outcome and the operations issued. The error of
`ObjectIDFromHex` is discarded. -/
def GetEmployeeByID (drv : Driver) (req : Request) : Outcome × List Call :=
  if drv.up = false then (Outcome.fatal, [])
  else
    let id := (ObjectIDFromHex req.param).1
    let filter := marshal { Employee.zero with ID := id }
    match drv.findOne filter with
    | Except.error text => (Outcome.returned (Reply.error text), [Call.FindOne filter])
    | Except.ok employee => (Outcome.returned (Reply.employee 200 employee), [Call.FindOne filter])

/-- Handler `DeleteEmployeeByID`: the result of `DeleteOne` is dropped. -/
def DeleteEmployeeByID (drv : Driver) (req : Request) : Outcome × List Call :=
  if drv.up = false then (Outcome.fatal, [])
  else
    let id := (ObjectIDFromHex req.param).1
    let filter := marshal { Employee.zero with ID := id }
    match drv.deleteOne filter with
    | Except.error text => (Outcome.returned (Reply.error text), [Call.DeleteOne filter])
    | Except.ok _ =>
      (Outcome.returned (Reply.res 200
          { ID := id, Message := "Employee is successfully deleted!!!" }),
        [Call.DeleteOne filter])

/-- Handler `AddEmployee`. The error of `Bind` is returned, the error of `InsertOne` is
discarded; when the result of `InsertOne` is nil, reading `result.InsertedID` dereferences a
nil pointer. -/
def AddEmployee (drv : Driver) (req : Request) : Outcome × List Call :=
  if drv.up = false then (Outcome.fatal, [])
  else if req.body.failed then (Outcome.returned Reply.bindError, [])
  else
    let employee := decodeInto Employee.zero req.body.fields
    match (drv.insertOne (marshal employee)).result with
    | none => (Outcome.panicked, [Call.InsertOne (marshal employee)])
    | some id =>
      (Outcome.returned (Reply.employee 201 { employee with ID := id }),
        [Call.InsertOne (marshal employee)])

/-- Handler `UpdateEmployeeById`. The error of `ObjectIDFromHex` is discarded, the error of
`Bind` is returned. -/
def UpdateEmployeeById (drv : Driver) (req : Request) : Outcome × List Call :=
  if drv.up = false then (Outcome.fatal, [])
  else
    let id := (ObjectIDFromHex req.param).1
    if req.body.failed then (Outcome.returned Reply.bindError, [])
    else
      let employee := decodeInto Employee.zero req.body.fields
      let filter := marshal { Employee.zero with ID := id }
      match drv.updateOne filter (marshal employee) with
      | Except.error text =>
        (Outcome.returned (Reply.error text), [Call.UpdateOne filter (marshal employee)])
      | Except.ok result =>
        (Outcome.returned (Reply.updateResult 200 result),
          [Call.UpdateOne filter (marshal employee)])

end GoEchoApiMongodb

/-! ## Properties of `go-echo-api-nodb` -/

namespace EchoNodb

theorem mapGet_cons (k' : Int) (v : user) (rest : UserMap) (k : Int) :
    mapGet ((k', v) :: rest) k = if k' = k then some v else mapGet rest k := rfl

theorem mapDelete_cons (k' : Int) (v : user) (rest : UserMap) (k : Int) :
    mapDelete ((k', v) :: rest) k
      = if k' = k then mapDelete rest k else (k', v) :: mapDelete rest k := by
  by_cases h : k' = k <;> simp [mapDelete, List.filter_cons, h]

theorem mapSetName_cons (k' : Int) (v : user) (rest : UserMap) (k : Int) (name : String) :
    mapSetName ((k', v) :: rest) k name
      = (if k' = k then (k', { v with Name := name }) else (k', v)) :: mapSetName rest k name := by
  simp [mapSetName]

theorem mapGet_mapDelete_self (m : UserMap) (k : Int) : mapGet (mapDelete m k) k = none := by
  induction m with
  | nil => rfl
  | cons e rest ih =>
    obtain ⟨k', v⟩ := e
    by_cases h : k' = k
    · simp [mapDelete_cons, h, ih]
    · simp [mapDelete_cons, mapGet_cons, h, ih]

theorem mapGet_mapDelete_ne (m : UserMap) (k j : Int) (hne : j ≠ k) :
    mapGet (mapDelete m k) j = mapGet m j := by
  induction m with
  | nil => rfl
  | cons e rest ih =>
    obtain ⟨k', v⟩ := e
    by_cases h : k' = k
    · have hj : ¬ k' = j := fun hj => hne (hj ▸ h)
      simp [mapDelete_cons, mapGet_cons, h, hj, ih, hne.symm]
    · by_cases hj : k' = j
      · subst hj
        simp [mapDelete_cons, mapGet_cons, h]
      · simp [mapDelete_cons, mapGet_cons, h, hj, ih]

theorem mapGet_mapSet_self (m : UserMap) (k : Int) (v : user) :
    mapGet (mapSet m k v) k = some v := by
  simp [mapSet, mapGet_cons]

theorem mapGet_mapSetName_self (m : UserMap) (k : Int) (name : String) :
    mapGet (mapSetName m k name) k
      = (mapGet m k).map (fun u => { u with Name := name }) := by
  induction m with
  | nil => rfl
  | cons e rest ih =>
    obtain ⟨k', v⟩ := e
    by_cases h : k' = k
    · simp [mapSetName_cons, mapGet_cons, h]
    · simp [mapSetName_cons, mapGet_cons, h, ih]

theorem mapGet_mapSetName_ne (m : UserMap) (k j : Int) (name : String) (hne : j ≠ k) :
    mapGet (mapSetName m k name) j = mapGet m j := by
  induction m with
  | nil => rfl
  | cons e rest ih =>
    obtain ⟨k', v⟩ := e
    by_cases h : k' = k
    · have hj : ¬ k' = j := fun hj => hne (hj ▸ h)
      simp [mapSetName_cons, mapGet_cons, h, hj, ih, hne.symm]
    · by_cases hj : k' = j
      · subst hj
        simp [mapSetName_cons, mapGet_cons, h]
      · simp [mapSetName_cons, mapGet_cons, h, hj, ih]

/-- C1: in the in-memory user variant, for every state and every create request whose body
binds, `getUser` called with a path parameter that denotes the ID returned by `createUser`
answers 200 with the very user that `createUser` returned with 201: it carries the name
supplied in the body (empty when none was supplied) and the assigned ID. -/
theorem createUser_then_getUser (st : Store) (req greq : Request) (d : BindData)
    (hbind : req.bind = some d)
    (hparam : (strconv.Atoi greq.param).1 = d.id.getD st.seq) :
    (createUser st req).1
        = Reply.json 201 (some { ID := d.id.getD st.seq, Name := d.name.getD "" })
      ∧ getUser (createUser st req).2 greq
        = (Reply.json 200 (some { ID := d.id.getD st.seq, Name := d.name.getD "" }),
            (createUser st req).2) := by
  simp [createUser, hbind, getUser, bindInto, hparam, mapGet_mapSet_self]

theorem createUser_then_getUser_witness :
    (createUser Store.sample
        { param := "", bind := some { id := none, name := some "cy" } }).1
        = Reply.json 201 (some { ID := 3, Name := "cy" })
      ∧ getUser (createUser Store.sample
          { param := "", bind := some { id := none, name := some "cy" } }).2
          { param := "3", bind := none }
        = (Reply.json 200 (some { ID := 3, Name := "cy" }),
            (createUser Store.sample
              { param := "", bind := some { id := none, name := some "cy" } }).2) :=
  createUser_then_getUser Store.sample
    { param := "", bind := some { id := none, name := some "cy" } }
    { param := "3", bind := none } { id := none, name := some "cy" } rfl (by decide)

/-- C2: evaluation of `createUser` at the failing input. After one create from the initial
state the map holds user 1 (`al`); a second create whose body carries `id` 1 is stored under
the key 1, which was present before the call, and the user stored there is replaced. -/
theorem createUser_body_id_replaces_stored_user :
    mapGet (createUser Store.initial
        { param := "", bind := some { id := none, name := some "al" } }).2.users 1
        = some { ID := 1, Name := "al" }
      ∧ createUser (createUser Store.initial
            { param := "", bind := some { id := none, name := some "al" } }).2
          { param := "", bind := some { id := some 1, name := some "bob" } }
        = (Reply.json 201 (some { ID := 1, Name := "bob" }),
            { users := [(1, { ID := 1, Name := "bob" })], seq := 3 }) := by
  decide

/-- C4, counterexample: in the initial state no user is stored under 7, and `getUser` for the
path parameter `7` answers with status 200 and the body `null`. -/
theorem getUser_absent_counterexample :
    mapGet Store.initial.users (strconv.Atoi "7").1 = none
      ∧ (getUser Store.initial { param := "7", bind := none }).1 = Reply.json 200 none := by
  decide

/-- C4, amended: for every state and every identifier that is not a key of the users map,
`getUser` answers with status 200 and the body `null` and leaves the state unchanged. -/
theorem getUser_absent_is_null_success (st : Store) (req : Request)
    (habsent : mapGet st.users (strconv.Atoi req.param).1 = none) :
    getUser st req = (Reply.json 200 none, st) := by
  simp [getUser, habsent]

theorem getUser_absent_is_null_success_witness :
    getUser Store.sample { param := "5", bind := none } = (Reply.json 200 none, Store.sample) :=
  getUser_absent_is_null_success Store.sample { param := "5", bind := none } (by decide)

/-- C7, counterexample: user 1 is stored with the name `al`; an update of 1 whose body binds
but has no name field leaves user 1 stored with the empty name. -/
theorem updateUser_absent_name_counterexample :
    updateUser { users := [(1, { ID := 1, Name := "al" })], seq := 2 }
        { param := "1", bind := some { id := none, name := none } }
      = (Reply.json 200 (some { ID := 1, Name := "" }),
          { users := [(1, { ID := 1, Name := "" })], seq := 2 }) := by
  decide

/-- C7, amended: for every stored user and every update request whose body binds but does
not contain the name field, `updateUser` sets the stored user's Name to the empty string; the
user keeps its ID, the answer is 200 with the updated user, and every other entry of the map
and `seq` are unchanged. -/
theorem updateUser_absent_name_clears_name (st : Store) (req : Request) (d : BindData)
    (old : user) (hbind : req.bind = some d) (hname : d.name = none)
    (hold : mapGet st.users (strconv.Atoi req.param).1 = some old) :
    (updateUser st req).1 = Reply.json 200 (some { ID := old.ID, Name := "" })
      ∧ mapGet (updateUser st req).2.users (strconv.Atoi req.param).1
          = some { ID := old.ID, Name := "" }
      ∧ (∀ k, k ≠ (strconv.Atoi req.param).1 →
          mapGet (updateUser st req).2.users k = mapGet st.users k)
      ∧ (updateUser st req).2.seq = st.seq := by
  refine ⟨?_, ?_, ?_, ?_⟩
  · simp [updateUser, hbind, hold, bindInto, hname, mapGet_mapSetName_self]
  · simp [updateUser, hbind, hold, bindInto, hname, mapGet_mapSetName_self]
  · intro k hk
    simp [updateUser, hbind, hold, mapGet_mapSetName_ne _ _ _ _ hk]
  · simp [updateUser, hbind, hold]

theorem updateUser_absent_name_clears_name_witness :
    (updateUser Store.sample { param := "2", bind := some { id := none, name := none } }).1
      = Reply.json 200 (some { ID := 2, Name := "" }) :=
  (updateUser_absent_name_clears_name Store.sample
    { param := "2", bind := some { id := none, name := none } } { id := none, name := none }
    { ID := 2, Name := "bo" } rfl rfl (by decide)).1

/-- C8: evaluation of `updateUser` at the failing input. In the initial state no user is
stored under 7; an update of 7 with a body that binds ends in a nil pointer dereference. The
state is left as it was. -/
theorem updateUser_absent_id_panics :
    mapGet Store.initial.users (strconv.Atoi "7").1 = none
      ∧ updateUser Store.initial { param := "7", bind := some { id := none, name := some "x" } }
        = (Reply.panicked, Store.initial) := by
  decide

theorem mapDelete_mapDelete (m : UserMap) (k : Int) :
    mapDelete (mapDelete m k) k = mapDelete m k := by
  simp [mapDelete, List.filter_filter]

/-- C11: in the in-memory user variant, for every state and every identifier, a second
`deleteUser` with the same identifier answers like the first (204, no error) and leaves the
state that the first call left: the first call removes the entry stored under the identifier
if there is one and changes no other entry nor `seq`, the second call removes nothing. -/
theorem deleteUser_twice_same_as_once (st : Store) (req : Request) :
    deleteUser (deleteUser st req).2 req = deleteUser st req
      ∧ (deleteUser st req).1 = Reply.noContent 204
      ∧ (deleteUser (deleteUser st req).2 req).1 = Reply.noContent 204
      ∧ (deleteUser (deleteUser st req).2 req).2 = (deleteUser st req).2
      ∧ mapGet (deleteUser st req).2.users (strconv.Atoi req.param).1 = none
      ∧ (∀ k, k ≠ (strconv.Atoi req.param).1 →
          mapGet (deleteUser st req).2.users k = mapGet st.users k)
      ∧ (deleteUser st req).2.seq = st.seq := by
  refine ⟨?_, rfl, rfl, ?_, ?_, ?_, rfl⟩
  · simp [deleteUser, mapDelete_mapDelete]
  · simp [deleteUser, mapDelete_mapDelete]
  · simp [deleteUser, mapGet_mapDelete_self]
  · intro k hk
    simp [deleteUser, mapGet_mapDelete_ne _ _ _ hk]

/-- C13: evaluation at the failing input. From the initial state two creates succeed (N = 2),
the second with a body that carries the id 1 which the first create returned; nothing is
deleted (M = 0). Both creates answer 201 with the identifier 1, and `getAllUsers` returns one
user, not two. -/
theorem getAllUsers_after_two_creates_one_user :
    (createUser Store.initial
        { param := "", bind := some { id := none, name := some "al" } }).1
        = Reply.json 201 (some { ID := 1, Name := "al" })
      ∧ (createUser (createUser Store.initial
            { param := "", bind := some { id := none, name := some "al" } }).2
          { param := "", bind := some { id := some 1, name := some "bob" } }).1
        = Reply.json 201 (some { ID := 1, Name := "bob" })
      ∧ (getAllUsers (createUser (createUser Store.initial
            { param := "", bind := some { id := none, name := some "al" } }).2
          { param := "", bind := some { id := some 1, name := some "bob" } }).2
          { param := "", bind := none }).1
        = Reply.jsonAll 200 [(1, { ID := 1, Name := "bob" })] := by
  decide

theorem ParseInt_invalid_value (s : List Char)
    (h : (strconv.ParseInt s).2 = some strconv.NumError.invalid) :
    (strconv.ParseInt s).1 = 0 := by
  unfold strconv.ParseInt at h ⊢
  by_cases hs : s = []
  · simp [hs]
  · simp only [hs, if_false] at h ⊢
    generalize strconv.ParseUint (strconv.pickSign s).2 = p at h ⊢
    obtain ⟨un, e⟩ := p
    cases e with
    | none =>
      exfalso
      simp only at h
      split_ifs at h <;> simp at h
    | some e =>
      cases e with
      | invalid => rfl
      | outOfRange =>
        exfalso
        simp only at h
        split_ifs at h <;> simp at h

/-- When `Atoi` reports a syntax error its value is 0. -/
theorem Atoi_invalid_value (param : String)
    (h : (strconv.Atoi param).2 = some strconv.NumError.invalid) :
    (strconv.Atoi param).1 = 0 :=
  ParseInt_invalid_value param.toList h

/-- C14, counterexample: user `zed` is stored under the key 0 (after a create whose body
carries the id 0). For the path id `abc`, which `Atoi` rejects, `getUser` answers 200 with
that user, `updateUser` renames it and answers 200, and `deleteUser` removes it and answers
204: no handler fails, and each acts on the entry with key 0. -/
theorem invalid_path_id_counterexample :
    (strconv.Atoi "abc").2 = some strconv.NumError.invalid
      ∧ (createUser Store.initial
          { param := "", bind := some { id := some 0, name := some "zed" } }).2 = Store.withZero
      ∧ getUser Store.withZero { param := "abc", bind := none }
        = (Reply.json 200 (some { ID := 0, Name := "zed" }), Store.withZero)
      ∧ updateUser Store.withZero
          { param := "abc", bind := some { id := none, name := some "new" } }
        = (Reply.json 200 (some { ID := 0, Name := "new" }),
            { users := [(0, { ID := 0, Name := "new" })], seq := 2 })
      ∧ deleteUser Store.withZero { param := "abc", bind := none }
        = (Reply.noContent 204, { users := [], seq := 2 }) := by
  decide

/-- C14, amended: for every path id string that `Atoi` rejects with a syntax error, the
handlers discard the error and go on with the value 0: `getUser` answers 200 with the user
stored under 0 (or `null`), `deleteUser` answers 204 after deleting the entry under 0, and
`updateUser` does exactly what it does for the path id `0`. -/
theorem invalid_path_id_acts_on_key_zero (st : Store) (req : Request)
    (hbad : (strconv.Atoi req.param).2 = some strconv.NumError.invalid) :
    getUser st req = (Reply.json 200 (mapGet st.users 0), st)
      ∧ deleteUser st req = (Reply.noContent 204, { st with users := mapDelete st.users 0 })
      ∧ updateUser st req = updateUser st { req with param := "0" } := by
  have h0 : (strconv.Atoi req.param).1 = 0 := Atoi_invalid_value req.param hbad
  have hz : (strconv.Atoi "0").1 = 0 := by decide
  refine ⟨?_, ?_, ?_⟩
  · simp [getUser, h0]
  · simp [deleteUser, h0]
  · simp [updateUser, h0, hz]

theorem invalid_path_id_acts_on_key_zero_witness :
    getUser Store.withZero { param := "x1", bind := none }
        = (Reply.json 200 (mapGet Store.withZero.users 0), Store.withZero)
      ∧ deleteUser Store.withZero { param := "x1", bind := none }
        = (Reply.noContent 204, { Store.withZero with users := mapDelete Store.withZero.users 0 })
      ∧ updateUser Store.withZero { param := "x1", bind := none }
        = updateUser Store.withZero { ({ param := "x1", bind := none } : Request) with
            param := "0" } :=
  invalid_path_id_acts_on_key_zero Store.withZero { param := "x1", bind := none } (by decide)

/-- C22: in the in-memory user variant, "every stored user has an ID field equal to the key
it is stored under" holds in the initial state and, from any state where it holds, after
`createUser` (whatever the body, an id included), after `updateUser` and after `deleteUser`;
an `updateUser` that finds the id changes the Name of that one entry only. -/
theorem keyedByID_preserved (st : Store) (req : Request) (hinv : KeyedByID st.users) :
    KeyedByID Store.initial.users
      ∧ KeyedByID (createUser st req).2.users
      ∧ KeyedByID (updateUser st req).2.users
      ∧ KeyedByID (deleteUser st req).2.users
      ∧ (∀ d old, req.bind = some d →
          mapGet st.users (strconv.Atoi req.param).1 = some old →
          mapGet (updateUser st req).2.users (strconv.Atoi req.param).1
              = some { ID := old.ID, Name := d.name.getD "" }
            ∧ (∀ k, k ≠ (strconv.Atoi req.param).1 →
                mapGet (updateUser st req).2.users k = mapGet st.users k)
            ∧ (updateUser st req).2.users.map Prod.fst = st.users.map Prod.fst) := by
  have hdel : ∀ k, KeyedByID (mapDelete st.users k) := by
    intro k e he
    exact hinv e (List.mem_of_mem_filter he)
  have hname : ∀ k name, KeyedByID (mapSetName st.users k name) := by
    intro k name e he
    simp only [mapSetName, List.mem_map] at he
    obtain ⟨e0, he0, rfl⟩ := he
    by_cases hk : e0.1 = k
    · simpa [hk] using hinv e0 he0
    · simpa [hk] using hinv e0 he0
  refine ⟨by simp [Store.initial], ?_, ?_, ?_, ?_⟩
  · cases hb : req.bind with
    | none => simpa [createUser, hb] using hinv
    | some d =>
      intro e he
      simp only [createUser, hb, mapSet, List.mem_cons] at he
      rcases he with he | he
      · rw [he]
      · exact hdel _ e he
  · cases hb : req.bind with
    | none => simpa [updateUser, hb] using hinv
    | some d =>
      cases hg : mapGet st.users (strconv.Atoi req.param).1 with
      | none => simpa [updateUser, hb, hg] using hinv
      | some old =>
        simp only [updateUser, hb, hg]
        exact hname _ _
  · exact hdel _
  · intro d old hb hg
    refine ⟨?_, ?_, ?_⟩
    · simp [updateUser, hb, hg, bindInto, mapGet_mapSetName_self]
    · intro k hk
      simp [updateUser, hb, hg, mapGet_mapSetName_ne _ _ _ _ hk]
    · simp only [updateUser, hb, hg, mapSetName, List.map_map]
      apply List.map_congr_left
      intro e _
      by_cases hk : e.1 = (strconv.Atoi req.param).1 <;> simp [hk]

theorem keyedByID_preserved_witness :
    KeyedByID Store.initial.users
      ∧ KeyedByID (createUser Store.sample
          { param := "", bind := some { id := some 1, name := some "cy" } }).2.users
      ∧ KeyedByID (updateUser Store.sample
          { param := "", bind := some { id := some 1, name := some "cy" } }).2.users
      ∧ KeyedByID (deleteUser Store.sample
          { param := "", bind := some { id := some 1, name := some "cy" } }).2.users :=
  ⟨(keyedByID_preserved Store.sample
      { param := "", bind := some { id := some 1, name := some "cy" } } (by decide)).1,
    (keyedByID_preserved Store.sample
      { param := "", bind := some { id := some 1, name := some "cy" } } (by decide)).2.1,
    (keyedByID_preserved Store.sample
      { param := "", bind := some { id := some 1, name := some "cy" } } (by decide)).2.2.1,
    (keyedByID_preserved Store.sample
      { param := "", bind := some { id := some 1, name := some "cy" } } (by decide)).2.2.2.1⟩

/-- C23: in the in-memory user variant, whenever binding the request body fails, `createUser`
and `updateUser` return that error and leave the state as it was: the same users map and
the same `seq`. -/
theorem bind_failure_leaves_state (st : Store) (req : Request) (hfail : req.bind = none) :
    createUser st req = (Reply.bindError, st)
      ∧ updateUser st req = (Reply.bindError, st)
      ∧ (createUser st req).2.users = st.users ∧ (createUser st req).2.seq = st.seq
      ∧ (updateUser st req).2.users = st.users ∧ (updateUser st req).2.seq = st.seq := by
  simp [createUser, updateUser, hfail]

theorem bind_failure_leaves_state_witness :
    createUser Store.sample { param := "1", bind := none } = (Reply.bindError, Store.sample)
      ∧ updateUser Store.sample { param := "1", bind := none }
          = (Reply.bindError, Store.sample) :=
  ⟨(bind_failure_leaves_state Store.sample { param := "1", bind := none } rfl).1,
    (bind_failure_leaves_state Store.sample { param := "1", bind := none } rfl).2.1⟩

/-- Below the largest `int` the increment `seq++` does not wrap around. -/
theorem wrapInt_succ (x : Int) (hlow : minInt ≤ x) (hhigh : x < maxInt) :
    wrapInt (x + 1) = x + 1 := by
  unfold minInt at hlow
  unfold maxInt at hhigh
  unfold wrapInt
  omega

theorem keysBelowSeq_mapDelete (users : UserMap) (k bound : Int)
    (h : ∀ e ∈ users, e.1 < bound) : ∀ e ∈ mapDelete users k, e.1 < bound :=
  fun e he => h e (List.mem_of_mem_filter he)

theorem keysBelowSeq_mapSetName (users : UserMap) (k bound : Int) (name : String)
    (h : ∀ e ∈ users, e.1 < bound) : ∀ e ∈ mapSetName users k name, e.1 < bound := by
  intro e he
  simp only [mapSetName, List.mem_map] at he
  obtain ⟨e0, he0, rfl⟩ := he
  by_cases hk : e0.1 = k
  · simpa [hk] using h e0 he0
  · simpa [hk] using h e0 he0

/-- What `createUser` does with a body that binds and carries no id, below the largest
`int`. -/
theorem createUser_no_id (st : Store) (req : Request) (d : BindData)
    (hbind : req.bind = some d) (hid : d.id = none) (hlow : minInt ≤ st.seq)
    (hhigh : st.seq < maxInt) :
    createUser st req
      = (Reply.json 201 (some { ID := st.seq, Name := d.name.getD "" }),
          { users := mapSet st.users st.seq { ID := st.seq, Name := d.name.getD "" },
            seq := st.seq + 1 }) := by
  simp [createUser, hbind, bindInto, hid, wrapInt_succ st.seq hlow hhigh]

/-- One request keeps the keys below `seq` and does not decrease `seq`. -/
theorem serve_keysBelowSeq (st : Store) (op : Route × Request) (hinv : KeysBelowSeq st)
    (hlow : minInt ≤ st.seq) (hop : carriesNoId op)
    (hroom : op.1 = Route.postUsers → st.seq < maxInt) :
    KeysBelowSeq (serve st op).2 ∧ st.seq ≤ (serve st op).2.seq
      ∧ (serve st op).2.seq ≤ st.seq + (if op.1 = Route.postUsers then 1 else 0) := by
  obtain ⟨route, req⟩ := op
  cases route with
  | getUsers => simpa [serve, getAllUsers] using hinv
  | getUsersId => simpa [serve, getUser] using hinv
  | deleteUsersId =>
    refine ⟨?_, by simp [serve, deleteUser], by simp [serve, deleteUser]⟩
    exact keysBelowSeq_mapDelete st.users _ st.seq hinv
  | putUsersId =>
    cases hb : req.bind with
    | none => simpa [serve, updateUser, hb] using hinv
    | some d =>
      cases hg : mapGet st.users (strconv.Atoi req.param).1 with
      | none => simpa [serve, updateUser, hb, hg] using hinv
      | some old =>
        refine ⟨?_, by simp [serve, updateUser, hb, hg], by simp [serve, updateUser, hb, hg]⟩
        simp only [serve, updateUser, hb, hg]
        exact keysBelowSeq_mapSetName st.users _ st.seq _ hinv
  | postUsers =>
    cases hb : req.bind with
    | none => simpa [serve, createUser, hb] using hinv
    | some d =>
      have hid : d.id = none := by
        have h := hop rfl
        simpa [hb] using h
      have hhigh : st.seq < maxInt := hroom rfl
      have hc := createUser_no_id st req d hb hid hlow hhigh
      simp only [serve, hc, if_true]
      refine ⟨?_, by omega, by omega⟩
      intro e he
      simp only [mapSet, List.mem_cons] at he
      rcases he with he | he
      · rw [he]
        show st.seq < st.seq + 1
        omega
      · have := keysBelowSeq_mapDelete st.users _ st.seq hinv e he
        show e.1 < st.seq + 1
        omega

theorem createCount_cons (op : Route × Request) (ops : List (Route × Request)) :
    createCount (op :: ops)
      = createCount ops + (if op.1 = Route.postUsers then 1 else 0) := by
  simp [createCount, List.countP_cons]

/-- Any number of requests keeps the keys below `seq` and does not decrease `seq`, as long
as the creates among them leave `seq` within the range of `int`. -/
theorem serveAll_keysBelowSeq (ops : List (Route × Request)) :
    ∀ st : Store, KeysBelowSeq st → minInt ≤ st.seq → (∀ op ∈ ops, carriesNoId op) →
      st.seq + createCount ops ≤ maxInt →
      KeysBelowSeq (serveAll st ops) ∧ st.seq ≤ (serveAll st ops).seq
        ∧ (serveAll st ops).seq ≤ st.seq + createCount ops := by
  induction ops with
  | nil =>
    intro st hinv _ _ _
    exact ⟨hinv, le_refl _, by simp [serveAll, createCount]⟩
  | cons op rest ih =>
    intro st hinv hlow hops hroom
    rw [createCount_cons] at hroom
    have hstep := serve_keysBelowSeq st op hinv hlow (hops op (List.mem_cons_self _ _))
      (by intro hr; rw [if_pos hr] at hroom; push_cast at hroom; omega)
    obtain ⟨h1, h2, h3⟩ := hstep
    have hrest := ih (serve st op).2 h1 (le_trans hlow h2)
      (fun o ho => hops o (List.mem_cons_of_mem _ ho))
      (by
        by_cases hr : op.1 = Route.postUsers
        · rw [if_pos hr] at hroom h3
          push_cast at hroom
          omega
        · rw [if_neg hr] at hroom h3
          push_cast at hroom
          omega)
    obtain ⟨g1, g2, g3⟩ := hrest
    refine ⟨g1, le_trans h2 g2, ?_⟩
    rw [createCount_cons]
    by_cases hr : op.1 = Route.postUsers
    · rw [if_pos hr] at h3 ⊢
      push_cast
      show (serveAll (serve st op).2 rest).seq ≤ _
      omega
    · rw [if_neg hr] at h3 ⊢
      push_cast
      show (serveAll (serve st op).2 rest).seq ≤ _
      omega

/-- C21, counterexample: the users map is empty and `seq` holds the largest `int`, so every
key is smaller than `seq`; a create without id stores its user under that value and `seq++`
wraps around to the smallest `int`: the key is no longer smaller than `seq`, and `seq` has
decreased. -/
theorem keysBelowSeq_counterexample :
    KeysBelowSeq Store.atMaxInt
      ∧ createUser Store.atMaxInt
          { param := "", bind := some { id := none, name := some "al" } }
        = (Reply.json 201 (some { ID := maxInt, Name := "al" }),
            { users := [(maxInt, { ID := maxInt, Name := "al" })], seq := minInt })
      ∧ ¬ KeysBelowSeq (createUser Store.atMaxInt
            { param := "", bind := some { id := none, name := some "al" } }).2
      ∧ (createUser Store.atMaxInt
            { param := "", bind := some { id := none, name := some "al" } }).2.seq
          < Store.atMaxInt.seq := by
  decide

/-- C21, amended: if every key of the users map is smaller than `seq`, then after any
requests (creates whose body carries no id, updates, deletes, reads) that leave `seq` below
the largest `int`, every key is still smaller than `seq` and `seq` has not decreased; a
create without id served then assigns exactly the current value of `seq`, increments `seq`
by one and keeps the property. Hence the identifier it assigns differs from every value
below the earlier `seq`, in particular from every identifier assigned or stored before,
whether deleted since or not. -/
theorem keysBelowSeq_preserved (st : Store) (ops : List (Route × Request)) (req : Request)
    (d : BindData) (hinv : KeysBelowSeq st) (hlow : minInt ≤ st.seq)
    (hops : ∀ op ∈ ops, carriesNoId op) (hroom : st.seq + createCount ops < maxInt)
    (hbind : req.bind = some d) (hid : d.id = none) :
    KeysBelowSeq (serveAll st ops)
      ∧ st.seq ≤ (serveAll st ops).seq
      ∧ createUser (serveAll st ops) req
          = (Reply.json 201 (some { ID := (serveAll st ops).seq, Name := d.name.getD "" }),
              { users := mapSet (serveAll st ops).users (serveAll st ops).seq
                  { ID := (serveAll st ops).seq, Name := d.name.getD "" },
                seq := (serveAll st ops).seq + 1 })
      ∧ KeysBelowSeq (createUser (serveAll st ops) req).2
      ∧ (∀ k, k < st.seq → (serveAll st ops).seq ≠ k)
      ∧ (∀ e ∈ st.users, e.1 ≠ (serveAll st ops).seq) := by
  obtain ⟨h1, h2, h3⟩ := serveAll_keysBelowSeq ops st hinv hlow hops (le_of_lt hroom)
  have hlow' : minInt ≤ (serveAll st ops).seq := le_trans hlow h2
  have hhigh' : (serveAll st ops).seq < maxInt := lt_of_le_of_lt h3 hroom
  have hcreate := createUser_no_id (serveAll st ops) req d hbind hid hlow' hhigh'
  have hstep := serve_keysBelowSeq (serveAll st ops) (Route.postUsers, req) h1 hlow'
    (by intro _; simp [hbind, hid]) (fun _ => hhigh')
  refine ⟨h1, h2, hcreate, hstep.1, ?_, ?_⟩
  · intro k hk heq
    omega
  · intro e he heq
    have := hinv e he
    omega

theorem keysBelowSeq_preserved_witness :
    KeysBelowSeq (serveAll Store.sample sampleRequests)
      ∧ Store.sample.seq ≤ (serveAll Store.sample sampleRequests).seq
      ∧ createUser (serveAll Store.sample sampleRequests)
          { param := "", bind := some { id := none, name := some "di" } }
          = (Reply.json 201 (some { ID := (serveAll Store.sample sampleRequests).seq,
                                    Name := "di" }),
              { users := mapSet (serveAll Store.sample sampleRequests).users
                  (serveAll Store.sample sampleRequests).seq
                  { ID := (serveAll Store.sample sampleRequests).seq, Name := "di" },
                seq := (serveAll Store.sample sampleRequests).seq + 1 }) :=
  ⟨(keysBelowSeq_preserved Store.sample sampleRequests
      { param := "", bind := some { id := none, name := some "di" } }
      { id := none, name := some "di" } (by decide) (by decide) (by decide) (by decide)
      rfl rfl).1,
    (keysBelowSeq_preserved Store.sample sampleRequests
      { param := "", bind := some { id := none, name := some "di" } }
      { id := none, name := some "di" } (by decide) (by decide) (by decide) (by decide)
      rfl rfl).2.1,
    (keysBelowSeq_preserved Store.sample sampleRequests
      { param := "", bind := some { id := none, name := some "di" } }
      { id := none, name := some "di" } (by decide) (by decide) (by decide) (by decide)
      rfl rfl).2.2.1⟩

end EchoNodb

/-! ## Properties of `restful-api-golang` -/

namespace RestfulApi

theorem rangeStep_skip (id : String) (s : Slice) (index : Nat) (a : Article)
    (hcell : s.arr[index]? = some a) (hne : a.Id ≠ id) :
    rangeStep id s index = Except.ok s := by
  simp [rangeStep, hcell, hne]

/-- Iterations that only meet cells with another Id leave `Articles` as it is. -/
theorem rangeLoop_skip (id : String) (s : Slice) :
    ∀ (k index : Nat), index + k ≤ s.arr.length →
      (∀ j a, index ≤ j → j < index + k → s.arr[j]? = some a → a.Id ≠ id) →
      rangeLoop id k index s = Except.ok s := by
  intro k
  induction k with
  | zero => intro index _ _; rfl
  | succ k ih =>
    intro index hlen h
    have hlt : index < s.arr.length := by omega
    have hcell : s.arr[index]? = some s.arr[index] := List.getElem?_eq_getElem hlt
    have hstep := rangeStep_skip id s index _ hcell (h index _ (le_refl _) (by omega) hcell)
    simp only [rangeLoop, hstep]
    exact ih (index + 1) (by omega) (fun j a h1 h2 => h j a (by omega) (by omega))

/-- The loop can be cut after any number of iterations. -/
theorem rangeLoop_add (id : String) :
    ∀ (k1 k2 index : Nat) (s : Slice),
      rangeLoop id (k1 + k2) index s =
        match rangeLoop id k1 index s with
        | Except.error e => Except.error e
        | Except.ok s' => rangeLoop id k2 (index + k1) s' := by
  intro k1
  induction k1 with
  | zero => intro k2 index s; simp [rangeLoop]
  | succ k1 ih =>
    intro k2 index s
    have hk : k1 + 1 + k2 = (k1 + k2) + 1 := by omega
    rw [hk]
    simp only [rangeLoop]
    cases hstep : rangeStep id s index with
    | error e => rfl
    | ok s' =>
      simp only [ih]
      have hi : index + 1 + k1 = index + (k1 + 1) := by omega
      rw [hi]

/-- When no article has the requested Id the loop removes nothing. -/
theorem removeLoop_no_match (id : String) (articles : List Article)
    (hno : ∀ a ∈ articles, a.Id ≠ id) :
    removeLoop id articles = Except.ok (Slice.ofList articles) := by
  unfold removeLoop
  apply rangeLoop_skip
  · simp [Slice.ofList]
  · intro j a _ _ hcell
    exact hno a (List.getElem?_mem hcell)

theorem ofList_toList (articles : List Article) : (Slice.ofList articles).toList = articles := by
  simp [Slice.ofList, Slice.toList]

/-- The iteration that meets the one article with the requested Id, at position
`pre.length`: the articles after it move one cell down and the last cell keeps its value. -/
theorem rangeStep_hit (id : String) (pre post : List Article) (a : Article) (ha : a.Id = id) :
    rangeStep id (Slice.ofList (pre ++ a :: post)) pre.length
      = Except.ok { arr := pre ++ post ++ (a :: post).drop post.length,
                    len := pre.length + post.length } := by
  have hcell : (pre ++ a :: post)[pre.length]? = some a := by
    rw [List.getElem?_append_right (le_refl _)]
    simp
  have hdrop : (pre ++ a :: post).drop (pre.length + 1) = post := by
    rw [show pre ++ a :: post = (pre ++ [a]) ++ post by simp]
    exact List.drop_left' (by simp)
  have hlast : (pre ++ a :: post).drop (pre.length + post.length)
      = (a :: post).drop post.length := List.drop_append post.length
  simp only [rangeStep, Slice.ofList, hcell, ha, if_true, removeAt]
  have hcond : pre.length ≤ (pre ++ a :: post).length
      ∧ pre.length + 1 ≤ (pre ++ a :: post).length := by
    simp
  rw [if_pos hcond]
  have h1 : (pre ++ a :: post).length - (pre.length + 1) = post.length := by
    simp only [List.length_append, List.length_cons]
    omega
  have h2 : (pre ++ a :: post).length - 1 = pre.length + post.length := by
    simp only [List.length_append, List.length_cons]
    omega
  rw [h1, h2, hdrop, hlast, List.take_left, List.take_length]

theorem mem_drop_length_cons (a : Article) (post : List Article) (hpost : post ≠ []) :
    ∀ x ∈ (a :: post).drop post.length, x ∈ post := by
  intro x hx
  cases post with
  | nil => exact absurd rfl hpost
  | cons b rest =>
    rw [List.length_cons, List.drop_succ_cons] at hx
    exact List.mem_of_mem_drop hx

/-- When exactly one article has the requested Id, the loop ends normally and removes it,
keeping the other articles in their order. -/
theorem removeLoop_unique (id : String) (pre post : List Article) (a : Article)
    (ha : a.Id = id) (hpre : ∀ x ∈ pre, x.Id ≠ id) (hpost : ∀ x ∈ post, x.Id ≠ id) :
    ∃ s, removeLoop id (pre ++ a :: post) = Except.ok s ∧ s.toList = pre ++ post := by
  refine ⟨{ arr := pre ++ post ++ (a :: post).drop post.length,
            len := pre.length + post.length }, ?_, ?_⟩
  · unfold removeLoop
    have hlen : (pre ++ a :: post).length = pre.length + (1 + post.length) := by
      simp; omega
    rw [hlen, rangeLoop_add]
    have hfirst : rangeLoop id pre.length 0 (Slice.ofList (pre ++ a :: post))
        = Except.ok (Slice.ofList (pre ++ a :: post)) := by
      apply rangeLoop_skip
      · simp [Slice.ofList]
      · intro j x _ hj hcell
        have hj' : j < pre.length := by omega
        simp only [Slice.ofList] at hcell
        rw [List.getElem?_append_left hj'] at hcell
        exact hpre x (List.getElem?_mem hcell)
    rw [hfirst]
    simp only [rangeLoop_add, rangeLoop, Nat.zero_add, rangeStep_hit id pre post a ha]
    by_cases hp : post = []
    · subst hp
      rfl
    · apply rangeLoop_skip
      · have : ((a :: post).drop post.length).length = 1 := by simp
        simp only [List.length_append, this]
        omega
      · intro j x _ _ hcell
        have hx := List.getElem?_mem hcell
        simp only [List.mem_append] at hx
        rcases hx with (hx | hx) | hx
        · exact hpre x hx
        · exact hpost x hx
        · exact hpost x (mem_drop_length_cons a post hp x hx)
  · simp only [Slice.toList]
    rw [List.append_assoc, ← List.length_append, ← List.append_assoc, List.take_left]

/-- A list with exactly one article of the requested Id splits around that article. -/
theorem split_of_countP_one (id : String) :
    ∀ articles : List Article, articles.countP (fun a => decide (a.Id = id)) = 1 →
      ∃ pre a post, articles = pre ++ a :: post ∧ a.Id = id
        ∧ (∀ x ∈ pre, x.Id ≠ id) ∧ (∀ x ∈ post, x.Id ≠ id) := by
  intro articles
  induction articles with
  | nil => intro h; simp at h
  | cons b rest ih =>
    intro h
    by_cases hb : b.Id = id
    · refine ⟨[], b, rest, rfl, hb, by simp, ?_⟩
      have h0 : rest.countP (fun a => decide (a.Id = id)) = 0 := by
        simpa [List.countP_cons, hb] using h
      intro x hx
      have := (List.countP_eq_zero.mp h0) x hx
      simpa using this
    · have h1 : rest.countP (fun a => decide (a.Id = id)) = 1 := by
        simpa [List.countP_cons, hb] using h
      obtain ⟨pre, a, post, hsplit, ha, hpre, hpost⟩ := ih h1
      refine ⟨b :: pre, a, post, by simp [hsplit], ha, ?_, hpost⟩
      intro x hx
      rcases List.mem_cons.mp hx with hx | hx
      · exact hx ▸ hb
      · exact hpre x hx

/-- C3, counterexample: with the two initial articles (Ids `1` and `2`) and the random value
1, which `rand.Intn(1000000)` can return, the new article gets the Id `1` of an article that
is already there, and the Ids, pairwise distinct before, are no longer so. -/
theorem createNewArticle_id_collision :
    (1 : Nat) < 1000000
      ∧ (Articles.initial.map (fun a => a.Id)).Nodup
      ∧ ((createNewArticle Articles.initial (Request.sample "" "") 1).2.map (fun a => a.Id))
          = ["1", "2", "1"]
      ∧ ¬ ((createNewArticle Articles.initial (Request.sample "" "") 1).2.map
            (fun a => a.Id)).Nodup := by
  decide

/-- C3, amended: `createNewArticle` appends the decoded article with the Id `Itoa r`, whatever
the body says; whenever no article already in `Articles` has the Id `Itoa r`, the new Id
differs from every Id already there, and if no two articles shared an Id before, none do after
the call. -/
theorem createNewArticle_fresh_id (articles : List Article) (req : Request) (r : Nat)
    (hfresh : ∀ a ∈ articles, a.Id ≠ strconv.Itoa r) :
    createNewArticle articles req r
        = (Reply.article [{ req.article with Id := strconv.Itoa r }],
            articles ++ [{ req.article with Id := strconv.Itoa r }])
      ∧ (∀ a ∈ articles, a.Id ≠ ({ req.article with Id := strconv.Itoa r } : Article).Id)
      ∧ ((articles.map (fun a => a.Id)).Nodup →
          ((createNewArticle articles req r).2.map (fun a => a.Id)).Nodup) := by
  refine ⟨rfl, hfresh, ?_⟩
  intro hnodup
  simp only [createNewArticle, List.map_append, List.map_cons, List.map_nil]
  rw [List.nodup_append]
  refine ⟨hnodup, List.nodup_singleton _, ?_⟩
  intro x hx hx'
  rcases List.mem_map.mp hx with ⟨a, ha, rfl⟩
  exact hfresh a ha (List.mem_singleton.mp hx')

theorem createNewArticle_fresh_id_witness :
    ((createNewArticle Articles.initial (Request.sample "" "7") 3).2.map (fun a => a.Id)).Nodup :=
  (createNewArticle_fresh_id Articles.initial (Request.sample "" "7") 3 (by decide)).2.2
    (by decide)

/-- C9, counterexample: no initial article has the Id `5`, and `updateArticle` for the path
id `5` leaves three articles instead of two: the article of the body is appended. -/
theorem updateArticle_no_match_counterexample :
    (∀ a ∈ Articles.initial, a.Id ≠ "5")
      ∧ (updateArticle Articles.initial (Request.sample "5" "5")).2
          = Articles.initial ++ [(Request.sample "5" "5").article]
      ∧ (updateArticle Articles.initial (Request.sample "5" "5")).2 ≠ Articles.initial := by
  decide

/-- C9, amended: when the path id equals the Id of no article in the list, `updateArticle`
removes and changes none of the articles and appends the article decoded from the body: the
list after the call is the list before the call followed by that article. -/
theorem updateArticle_no_match_appends (articles : List Article) (req : Request)
    (hno : ∀ a ∈ articles, a.Id ≠ req.id) :
    updateArticle articles req
      = (Reply.articles (articles ++ [req.article]), articles ++ [req.article]) := by
  simp [updateArticle, removeLoop_no_match req.id articles hno, ofList_toList]

theorem updateArticle_no_match_appends_witness :
    updateArticle Articles.initial (Request.sample "5" "5")
      = (Reply.articles (Articles.initial ++ [(Request.sample "5" "5").article]),
          Articles.initial ++ [(Request.sample "5" "5").article]) :=
  updateArticle_no_match_appends Articles.initial (Request.sample "5" "5") (by decide)

/-- C10, counterexample: exactly one initial article has the Id `1`; after `updateArticle`
for the path id `1` with a body whose Id is `9`, no article has the Id `1`. -/
theorem updateArticle_id_counterexample :
    Articles.initial.countP (fun a => decide (a.Id = "1")) = 1
      ∧ ((updateArticle Articles.initial (Request.sample "1" "9")).2.map (fun a => a.Id))
          = ["2", "9"]
      ∧ (updateArticle Articles.initial (Request.sample "1" "9")).2.countP
          (fun a => decide (a.Id = "1")) = 0 := by
  decide

/-- C10, amended: when exactly one article of the list has the path id, `updateArticle` ends
normally, removes that article, keeps the others in their order and appends the article
decoded from the body with the Id the body gives it. Afterwards exactly one article has the
path id if the body's Id equals the path id, and none otherwise. -/
theorem updateArticle_unique_match (articles : List Article) (req : Request)
    (hone : articles.countP (fun a => decide (a.Id = req.id)) = 1) :
    updateArticle articles req
        = (Reply.articles (articles.filter (fun a => decide (a.Id ≠ req.id)) ++ [req.article]),
            articles.filter (fun a => decide (a.Id ≠ req.id)) ++ [req.article])
      ∧ (updateArticle articles req).2.countP (fun a => decide (a.Id = req.id))
          = if req.article.Id = req.id then 1 else 0 := by
  obtain ⟨pre, a, post, hsplit, ha, hpre, hpost⟩ := split_of_countP_one req.id articles hone
  obtain ⟨s, hloop, hlist⟩ := removeLoop_unique req.id pre post a ha hpre hpost
  have hfpre : pre.filter (fun a => decide (a.Id ≠ req.id)) = pre :=
    List.filter_eq_self.mpr (fun x hx => by simpa using hpre x hx)
  have hfpost : post.filter (fun a => decide (a.Id ≠ req.id)) = post :=
    List.filter_eq_self.mpr (fun x hx => by simpa using hpost x hx)
  have hfilter : articles.filter (fun a => decide (a.Id ≠ req.id)) = pre ++ post := by
    rw [hsplit, List.filter_append, List.filter_cons, hfpre, hfpost]
    simp [ha]
  have hupd : updateArticle articles req
      = (Reply.articles (pre ++ post ++ [req.article]), pre ++ post ++ [req.article]) := by
    simp only [updateArticle, hsplit, hloop, hlist]
  have hzero : (pre ++ post).countP (fun a => decide (a.Id = req.id)) = 0 := by
    rw [List.countP_eq_zero]
    intro x hx
    rcases List.mem_append.mp hx with hx | hx
    · simpa using hpre x hx
    · simpa using hpost x hx
  refine ⟨by rw [hupd, hfilter], ?_⟩
  rw [hupd]
  simp only [List.countP_append, hzero, Nat.zero_add]
  by_cases hb : req.article.Id = req.id <;> simp [List.countP_cons, hb]

theorem updateArticle_unique_match_witness :
    (updateArticle Articles.initial (Request.sample "2" "2")).2.countP
        (fun a => decide (a.Id = (Request.sample "2" "2").id))
      = if (Request.sample "2" "2").article.Id = (Request.sample "2" "2").id then 1 else 0 :=
  (updateArticle_unique_match Articles.initial (Request.sample "2" "2") (by decide)).2

/-- When the Ids are pairwise distinct, at most one article has the requested Id. -/
theorem no_match_or_one_of_nodup (id : String) :
    ∀ articles : List Article, (articles.map (fun a => a.Id)).Nodup →
      (∀ a ∈ articles, a.Id ≠ id) ∨ articles.countP (fun a => decide (a.Id = id)) = 1 := by
  intro articles
  induction articles with
  | nil => intro _; left; simp
  | cons b rest ih =>
    intro hnodup
    rw [List.map_cons, List.nodup_cons] at hnodup
    obtain ⟨hb, hrest⟩ := hnodup
    by_cases hid : b.Id = id
    · right
      have hzero : rest.countP (fun a => decide (a.Id = id)) = 0 := by
        rw [List.countP_eq_zero]
        intro x hx hxid
        apply hb
        rw [List.mem_map]
        exact ⟨x, hx, by rw [hid]; simpa using hxid⟩
      simp [List.countP_cons, hid, hzero]
    · rcases ih hrest with hno | hone
      · left
        intro a ha
        rcases List.mem_cons.mp ha with ha | ha
        · exact ha ▸ hid
        · exact hno a ha
      · right
        simpa [List.countP_cons, hid] using hone

/-- With exactly one article of the requested Id, the loop leaves the other articles. -/
theorem removeLoop_of_countP_one (id : String) (articles : List Article)
    (hone : articles.countP (fun a => decide (a.Id = id)) = 1) :
    ∃ s, removeLoop id articles = Except.ok s
      ∧ s.toList = articles.filter (fun a => decide (a.Id ≠ id)) := by
  obtain ⟨pre, a, post, hsplit, ha, hpre, hpost⟩ := split_of_countP_one id articles hone
  obtain ⟨s, hloop, hlist⟩ := removeLoop_unique id pre post a ha hpre hpost
  have hfpre : pre.filter (fun a => decide (a.Id ≠ id)) = pre :=
    List.filter_eq_self.mpr (fun x hx => by simpa using hpre x hx)
  have hfpost : post.filter (fun a => decide (a.Id ≠ id)) = post :=
    List.filter_eq_self.mpr (fun x hx => by simpa using hpost x hx)
  refine ⟨s, by rw [hsplit, hloop], ?_⟩
  rw [hlist, hsplit, List.filter_append, List.filter_cons, hfpre, hfpost]
  simp [ha]

/-- C12: in the in-memory article variant, for every Articles list whose Ids are pairwise
distinct and every path id, `deleteArticle` ends normally and leaves the original list
without the article whose Id equals the path id, the other articles in their original order;
when no article has that Id the list is unchanged. -/
theorem deleteArticle_removes_the_match (articles : List Article) (req : Request)
    (hnodup : (articles.map (fun a => a.Id)).Nodup) :
    deleteArticle articles req
        = (Reply.empty, articles.filter (fun a => decide (a.Id ≠ req.id)))
      ∧ ((∀ a ∈ articles, a.Id ≠ req.id) → (deleteArticle articles req).2 = articles) := by
  rcases no_match_or_one_of_nodup req.id articles hnodup with hno | hone
  · have hdel : deleteArticle articles req = (Reply.empty, articles) := by
      simp [deleteArticle, removeLoop_no_match req.id articles hno, ofList_toList]
    have hfilter : articles.filter (fun a => decide (a.Id ≠ req.id)) = articles :=
      List.filter_eq_self.mpr (fun x hx => by simpa using hno x hx)
    exact ⟨by rw [hdel, hfilter], fun _ => by rw [hdel]⟩
  · obtain ⟨s, hloop, hlist⟩ := removeLoop_of_countP_one req.id articles hone
    have hdel : deleteArticle articles req
        = (Reply.empty, articles.filter (fun a => decide (a.Id ≠ req.id))) := by
      simp only [deleteArticle, hloop, hlist]
    refine ⟨hdel, ?_⟩
    intro hno
    rw [hdel]
    exact List.filter_eq_self.mpr (fun x hx => by simpa using hno x hx)

theorem deleteArticle_removes_the_match_witness :
    deleteArticle Articles.initial (Request.sample "1" "")
      = (Reply.empty,
          Articles.initial.filter (fun a => decide (a.Id ≠ (Request.sample "1" "").id))) :=
  (deleteArticle_removes_the_match Articles.initial (Request.sample "1" "") (by decide)).1

/-- C24: evaluation at two failing inputs. (1) After `PUT /article/1` with a body whose Id is
`2`, two articles share the Id `2`; `deleteArticle` for the path id `2` then panics in the
slice expression `Articles[index+1:]`, with one of them still in the list. (2) After
`PUT /article/2` with a body whose Id is `1` and a create with the random Id `5`, the Ids are
`1, 1, 5`; `deleteArticle` for the path id `1` ends normally but leaves an article with the
Id `1` in the list. -/
theorem deleteArticle_shared_id_fails :
    ((updateArticle Articles.initial (Request.sample "1" "2")).2.map (fun a => a.Id))
        = ["2", "2"]
      ∧ (deleteArticle (updateArticle Articles.initial (Request.sample "1" "2")).2
          (Request.sample "2" "")).1 = Reply.panicked
      ∧ ((deleteArticle (updateArticle Articles.initial (Request.sample "1" "2")).2
          (Request.sample "2" "")).2.map (fun a => a.Id)) = ["2"]
      ∧ ((createNewArticle (updateArticle Articles.initial (Request.sample "2" "1")).2
          (Request.sample "" "") 5).2.map (fun a => a.Id)) = ["1", "1", "5"]
      ∧ (deleteArticle
          (createNewArticle (updateArticle Articles.initial (Request.sample "2" "1")).2
            (Request.sample "" "") 5).2 (Request.sample "1" "")).1 = Reply.empty
      ∧ ((deleteArticle
          (createNewArticle (updateArticle Articles.initial (Request.sample "2" "1")).2
            (Request.sample "" "") 5).2 (Request.sample "1" "")).2.map (fun a => a.Id))
          = ["1", "5"] := by
  decide

/-- With pairwise distinct Ids, no article before or after a given one has its Id. -/
theorem no_match_around_of_nodup (pre post : List Article) (a : Article)
    (hnodup : ((pre ++ a :: post).map (fun a => a.Id)).Nodup) :
    (∀ x ∈ pre, x.Id ≠ a.Id) ∧ (∀ x ∈ post, x.Id ≠ a.Id) := by
  rw [List.map_append, List.map_cons, List.nodup_append] at hnodup
  obtain ⟨_, hright, hdisj⟩ := hnodup
  rw [List.nodup_cons] at hright
  constructor
  · intro x hx heq
    exact hdisj (List.mem_map.mpr ⟨x, hx, rfl⟩) (by rw [heq]; exact List.mem_cons_self _ _)
  · intro x hx heq
    exact hright.1 (List.mem_map.mpr ⟨x, hx, heq⟩)

/-- C25: in the in-memory article variant, for every Articles list whose Ids are pairwise
distinct, every path id equal to the Id of one article in the list and every body,
`updateArticle` ends normally and yields a list of the same length: the other articles in
their original order, followed by the article decoded from the body as the last element,
which carries the Id given in the body. -/
theorem updateArticle_moves_to_end (articles : List Article) (req : Request)
    (hnodup : (articles.map (fun a => a.Id)).Nodup)
    (hmem : ∃ a ∈ articles, a.Id = req.id) :
    updateArticle articles req
        = (Reply.articles (articles.filter (fun a => decide (a.Id ≠ req.id)) ++ [req.article]),
            articles.filter (fun a => decide (a.Id ≠ req.id)) ++ [req.article])
      ∧ (updateArticle articles req).2.length = articles.length
      ∧ (updateArticle articles req).2.getLast? = some req.article
      ∧ (∀ pre a post, articles = pre ++ a :: post → a.Id = req.id →
          (updateArticle articles req).2 = pre ++ post ++ [req.article]) := by
  have hone : articles.countP (fun a => decide (a.Id = req.id)) = 1 := by
    rcases no_match_or_one_of_nodup req.id articles hnodup with hno | hone
    · obtain ⟨a, ha, hid⟩ := hmem
      exact absurd hid (hno a ha)
    · exact hone
  obtain ⟨s, hloop, hlist⟩ := removeLoop_of_countP_one req.id articles hone
  have hupd : updateArticle articles req
      = (Reply.articles (articles.filter (fun a => decide (a.Id ≠ req.id)) ++ [req.article]),
          articles.filter (fun a => decide (a.Id ≠ req.id)) ++ [req.article]) := by
    simp only [updateArticle, hloop, hlist]
  have hsplit : ∀ pre a post, articles = pre ++ a :: post → a.Id = req.id →
      articles.filter (fun a => decide (a.Id ≠ req.id)) = pre ++ post := by
    intro pre a post hart ha
    subst hart
    obtain ⟨hpre, hpost⟩ := no_match_around_of_nodup pre post a hnodup
    rw [ha] at hpre hpost
    have hfpre : pre.filter (fun a => decide (a.Id ≠ req.id)) = pre :=
      List.filter_eq_self.mpr (fun x hx => by simpa using hpre x hx)
    have hfpost : post.filter (fun a => decide (a.Id ≠ req.id)) = post :=
      List.filter_eq_self.mpr (fun x hx => by simpa using hpost x hx)
    rw [List.filter_append, List.filter_cons, hfpre, hfpost]
    simp [ha]
  refine ⟨hupd, ?_, ?_, ?_⟩
  · obtain ⟨pre, a, post, hart, ha, _, _⟩ := split_of_countP_one req.id articles hone
    rw [hupd, hsplit pre a post hart ha, hart]
    simp only [List.length_append, List.length_cons, List.length_nil]
    omega
  · rw [hupd]
    exact List.getLast?_concat _
  · intro pre a post hart ha
    rw [hupd, hsplit pre a post hart ha]

theorem updateArticle_moves_to_end_witness :
    updateArticle Articles.initial (Request.sample "1" "7")
        = (Reply.articles
            (Articles.initial.filter (fun a => decide (a.Id ≠ (Request.sample "1" "7").id))
              ++ [(Request.sample "1" "7").article]),
            Articles.initial.filter (fun a => decide (a.Id ≠ (Request.sample "1" "7").id))
              ++ [(Request.sample "1" "7").article])
      ∧ (updateArticle Articles.initial (Request.sample "1" "7")).2.length
          = Articles.initial.length :=
  ⟨(updateArticle_moves_to_end Articles.initial (Request.sample "1" "7") (by decide)
      (by decide)).1,
    (updateArticle_moves_to_end Articles.initial (Request.sample "1" "7") (by decide)
      (by decide)).2.1⟩

end RestfulApi

/-! ## Properties of the relational variants -/

namespace Sql

/-- C5, counterexample: the table has no row with `userid` 7, the SELECT reports
`sql.ErrNoRows`, and `getUser` of both variants returns the zero-valued `User` together with a
nil error. -/
theorem getUser_no_row_counterexample :
    queryRow Db.sample 7 = Except.error SqlError.ErrNoRows
      ∧ GoPostgresApi.getUser Db.sample 7 = Outcome.returned (User.zero, none)
      ∧ GoEchoApiPostgres.getUser Db.sample 7 = Outcome.returned (User.zero, none) :=
  ⟨rfl, by decide, by decide⟩

/-- C5, amended: in both relational variants, for every id for which the SELECT reports
`sql.ErrNoRows`, `getUser` returns the zero-valued `User` together with a nil error, and the
handler `GetUser` answers 200 with that zero-valued user and leaves the database as it is. -/
theorem getUser_no_row_returns_zero_user (db : Db) (id : Int) (req : Request)
    (hconn : db.conn = Conn.up) (hrow : queryRow db id = Except.error SqlError.ErrNoRows)
    (hparam : strconv.Atoi req.param = (id, none)) :
    GoPostgresApi.getUser db id = Outcome.returned (User.zero, none)
      ∧ GoEchoApiPostgres.getUser db id = Outcome.returned (User.zero, none)
      ∧ GoPostgresApi.GetUser db req = (Outcome.returned (Reply.user 200 User.zero), db)
      ∧ GoEchoApiPostgres.GetUser db req = (Outcome.returned (Reply.user 200 User.zero), db) := by
  have h1 : GoPostgresApi.getUser db id = Outcome.returned (User.zero, none) := by
    simp [GoPostgresApi.getUser, hconn, hrow]
  have h2 : GoEchoApiPostgres.getUser db id = Outcome.returned (User.zero, none) := by
    simp [GoEchoApiPostgres.getUser, hconn, hrow]
  refine ⟨h1, h2, ?_, ?_⟩
  · simp [GoPostgresApi.GetUser, hparam, h1]
  · simp [GoEchoApiPostgres.GetUser, hparam, h2]

theorem getUser_no_row_returns_zero_user_witness :
    GoPostgresApi.getUser Db.sample 7 = Outcome.returned (User.zero, none)
      ∧ GoEchoApiPostgres.getUser Db.sample 7 = Outcome.returned (User.zero, none)
      ∧ GoPostgresApi.GetUser Db.sample { param := "7", body := none }
          = (Outcome.returned (Reply.user 200 User.zero), Db.sample)
      ∧ GoEchoApiPostgres.GetUser Db.sample { param := "7", body := none }
          = (Outcome.returned (Reply.user 200 User.zero), Db.sample) :=
  getUser_no_row_returns_zero_user Db.sample 7 { param := "7", body := none } rfl rfl
    (by decide)

/-- C6, counterexample: user 1 is stored with name `al`, age 30 and location `Hanoi`; an
update of 1 whose body supplies only the name `cy` leaves the row with age 0 and the empty
location, in both variants. -/
theorem UpdateUser_partial_body_counterexample :
    (GoPostgresApi.UpdateUser Db.sample
        { param := "1", body := some { id := none, name := some "cy", location := none,
                                       age := none } }).2.table
        = [ { userid := 1, name := "cy", age := 0, location := "" },
            { userid := 2, name := "bo", age := 25, location := "Hue" } ]
      ∧ (GoEchoApiPostgres.UpdateUser Db.sample
        { param := "1", body := some { id := none, name := some "cy", location := none,
                                       age := none } }).2.table
        = [ { userid := 1, name := "cy", age := 0, location := "" },
            { userid := 2, name := "bo", age := 25, location := "Hue" } ] := by
  decide

/-- C6, amended: in both relational variants, when the statement runs, `UpdateUser` sets
all three columns name, location and age of every row with the given userid to the values
decoded from the body, a field that the body does not supply counting as the empty string or
0; the userid column and the rows of other users are unchanged. -/
theorem UpdateUser_sets_all_columns (db : Db) (id : Int) (req : Request) (d : BodyData)
    (hconn : db.conn = Conn.up) (hstmt : db.stmtFails = false)
    (hparam : strconv.Atoi req.param = (id, none)) (hbody : req.body = some d) :
    (GoPostgresApi.UpdateUser db req).2.table = (GoEchoApiPostgres.UpdateUser db req).2.table
      ∧ (GoPostgresApi.UpdateUser db req).2.table.length = db.table.length
      ∧ ∀ (i : Nat) (r : Row), db.table[i]? = some r →
          (GoPostgresApi.UpdateUser db req).2.table[i]?
            = some (if r.userid = id then
                      { userid := r.userid, name := d.name.getD "", age := d.age.getD 0,
                        location := d.location.getD "" }
                    else r) := by
  have hg : (GoPostgresApi.UpdateUser db req).2.table
      = db.table.map (fun r =>
          if r.userid = id then
            { r with name := d.name.getD "", location := d.location.getD "",
                     age := d.age.getD 0 }
          else r) := by
    simp [GoPostgresApi.UpdateUser, GoPostgresApi.updateUser, hparam, hbody, hconn, execUpdate,
      hstmt, decodeInto, User.zero]
  have he : (GoEchoApiPostgres.UpdateUser db req).2.table
      = db.table.map (fun r =>
          if r.userid = id then
            { r with name := d.name.getD "", location := d.location.getD "",
                     age := d.age.getD 0 }
          else r) := by
    simp [GoEchoApiPostgres.UpdateUser, GoEchoApiPostgres.updateUser, hparam, hbody, hconn,
      execUpdate, hstmt, decodeInto, User.zero]
  refine ⟨by rw [hg, he], by rw [hg, List.length_map], ?_⟩
  intro i r hr
  rw [hg, List.getElem?_map, hr]
  by_cases h : r.userid = id <;> simp [h]

theorem UpdateUser_sets_all_columns_witness :
    (GoPostgresApi.UpdateUser Db.sample
        { param := "2", body := some { id := none, name := none, location := some "Hue",
                                       age := none } }).2.table.length
      = Db.sample.table.length :=
  (UpdateUser_sets_all_columns Db.sample 2
    { param := "2", body := some { id := none, name := none, location := some "Hue",
                                   age := none } }
    { id := none, name := none, location := some "Hue", age := none } rfl rfl (by decide)
    rfl).2.1

/-- C16, counterexample: no row has the userid 7, so the DELETE reports 0 rows affected;
`DeleteUser` of the echo variant answers 200 with the message
`User with ID 7 is successfully deleted!!!`, in which the count 0 does not occur. -/
theorem DeleteUser_message_counterexample :
    GoEchoApiPostgres.deleteUser Db.sample 7 = (Outcome.returned 0, Db.sample)
      ∧ GoEchoApiPostgres.DeleteUser Db.sample { param := "7", body := none }
        = (Outcome.returned (Reply.res 200
            { ID := 7, Message := "User with ID 7 is successfully deleted!!!" }), Db.sample)
      ∧ ¬ ((toString (0 : Int)).toList
            <:+: ("User with ID 7 is successfully deleted!!!" : String).toList) := by
  decide

/-- C16, amended: in the echo relational variant, for every numeric path id and whatever the
number of rows the DELETE statement affects (0 included), `DeleteUser` answers 200 with the
identifier and the message `User with ID <id> is successfully deleted!!!`, which contains the
identifier; the number of rows affected is dropped and has no influence on the answer. -/
theorem DeleteUser_message_names_id_only (db : Db) (req : Request) (id : Int)
    (hconn : db.conn = Conn.up) (hstmt : db.stmtFails = false)
    (hparam : strconv.Atoi req.param = (id, none)) :
    (GoEchoApiPostgres.DeleteUser db req).1
        = Outcome.returned (Reply.res 200
            { ID := id,
              Message := "User with ID " ++ toString id ++ " is successfully deleted!!!" })
      ∧ (toString id).toList
          <:+: ("User with ID " ++ toString id ++ " is successfully deleted!!!").toList
      ∧ (GoEchoApiPostgres.DeleteUser db req).2.table
          = db.table.filter (fun r => decide (r.userid ≠ id)) := by
  refine ⟨?_, ?_, ?_⟩
  · simp [GoEchoApiPostgres.DeleteUser, GoEchoApiPostgres.deleteUser, hparam, hconn, execDelete,
      hstmt]
  · refine ⟨("User with ID " : String).toList,
      (" is successfully deleted!!!" : String).toList, ?_⟩
    simp [String.toList, String.data_append]
  · simp [GoEchoApiPostgres.DeleteUser, GoEchoApiPostgres.deleteUser, hparam, hconn, execDelete,
      hstmt]

theorem DeleteUser_message_names_id_only_witness :
    (GoEchoApiPostgres.DeleteUser Db.sample { param := "2", body := none }).1
      = Outcome.returned (Reply.res 200
          { ID := 2,
            Message := "User with ID " ++ toString (2 : Int) ++ " is successfully deleted!!!" }) :=
  (DeleteUser_message_names_id_only Db.sample { param := "2", body := none } 2 rfl rfl
    (by decide)).1

end Sql

/-! ## Properties of the document-store variants -/

namespace Mongo

/-- When `ObjectIDFromHex` returns an error its value is the zero ObjectID. -/
theorem ObjectIDFromHex_invalid_value (param : String)
    (h : (ObjectIDFromHex param).2 = true) : (ObjectIDFromHex param).1 = NilObjectID := by
  unfold ObjectIDFromHex at h ⊢
  generalize decodeHex param.toList = r at h ⊢
  by_cases hlen : param.toList.length = 24
  · rw [if_pos hlen] at h ⊢
    cases r with
    | none => rfl
    | some bytes => simp at h
  · rw [if_neg hlen]

/-- The filter built from `models.Employee{ID: NilObjectID}` has no key. -/
theorem marshal_zero_filter :
    marshal { Employee.zero with ID := NilObjectID } = Document.empty := by
  decide

/-- The document sent for a decoded body: a key is there exactly when the body supplies the
field with a value that is not the zero value. -/
theorem marshal_decodeInto (d : BodyData) :
    marshal (decodeInto Employee.zero d)
      = { _id := d.id.filter (fun v => decide (v ≠ NilObjectID)),
          name := d.name.filter (fun v => decide (v ≠ "")),
          department := d.department.filter (fun v => decide (v ≠ "")),
          level := d.level.filter (fun v => decide (v ≠ "")),
          description := d.description.filter (fun v => decide (v ≠ "")) } := by
  obtain ⟨id, name, department, level, description⟩ := d
  have hs : ∀ o : Option String,
      (if o.getD "" = "" then none else some (o.getD ""))
        = o.filter (fun v => decide (v ≠ "")) := by
    intro o
    cases o with
    | none => simp [Option.filter]
    | some v => by_cases hv : v = "" <;> simp [Option.filter, hv]
  have hi : ∀ o : Option ObjectID,
      (if o.getD NilObjectID = NilObjectID then none else some (o.getD NilObjectID))
        = o.filter (fun v => decide (v ≠ NilObjectID)) := by
    intro o
    cases o with
    | none => simp [Option.filter]
    | some v => by_cases hv : v = NilObjectID <;> simp [Option.filter, hv]
  simp only [marshal, decodeInto, Employee.zero, hs, hi]

/-- C15, counterexample: the path id `xyz` is not a hexadecimal ObjectID, and with a backend
that answers every operation the handlers of both variants issue their `FindOne`,
`UpdateOne` and `DeleteOne` call (with a filter without any key) and answer with success. -/
theorem invalid_hex_id_counterexample :
    (ObjectIDFromHex "xyz").2 = true
      ∧ GoMongodbApi.GetEmployeeByID Driver.sample { param := "xyz", body := Body.sample }
        = (Outcome.returned (Reply.employee 200
            { ID := List.replicate 12 1, Name := "al", Department := "IT", Level := "L1",
              Description := "" }), [Call.FindOne Document.empty])
      ∧ (GoEchoApiMongodb.GetEmployeeByID Driver.sample
          { param := "xyz", body := Body.sample }).2 = [Call.FindOne Document.empty]
      ∧ GoEchoApiMongodb.UpdateEmployeeById Driver.sample
          { param := "xyz", body := Body.sample }
        = (Outcome.returned (Reply.updateResult 200
              { MatchedCount := 1, ModifiedCount := 1, UpsertedCount := 0 }),
            [Call.UpdateOne Document.empty
              { _id := none, name := none, department := none, level := some "L2",
                description := none }])
      ∧ GoEchoApiMongodb.DeleteEmployeeByID Driver.sample
          { param := "xyz", body := Body.sample }
        = (Outcome.returned (Reply.res 200
              { ID := NilObjectID, Message := "Employee is successfully deleted!!!" }),
            [Call.DeleteOne Document.empty])
      ∧ GoMongodbApi.DeleteEmployeeByID Driver.sample { param := "xyz", body := Body.sample }
        = (Outcome.returned (Reply.deleteResult 200 { DeletedCount := 1 }),
            [Call.DeleteOne Document.empty]) := by
  decide

/-- C15, amended: in both document-store variants, for every path id string that is not a
valid hexadecimal ObjectID, the handlers discard the error of `ObjectIDFromHex` and go on
with the zero ObjectID. `GetEmployeeByID` issues one `FindOne`, `DeleteEmployeeByID` one
`DeleteOne` and `UpdateEmployeeById` one `UpdateOne`, each with the filter built from the
zero ObjectID, and the answer is the one the driver's result dictates: on success status 200
with the employee found, with the delete result (gorilla) or the fixed success message
(echo), or with the update result; on a driver error status 500 with the error's text
(gorilla) or the error returned (echo). Only `UpdateEmployeeById` of the echo variant can
end before its call, when the body does not bind. No answer of its own is produced for the
invalid identifier. -/
theorem invalid_hex_id_still_calls (drv : Driver) (req : Request) (hup : drv.up = true)
    (hbad : (ObjectIDFromHex req.param).2 = true) :
    (GoMongodbApi.GetEmployeeByID drv req).2 = [Call.FindOne Document.empty]
      ∧ (GoEchoApiMongodb.GetEmployeeByID drv req).2 = [Call.FindOne Document.empty]
      ∧ (GoMongodbApi.DeleteEmployeeByID drv req).2 = [Call.DeleteOne Document.empty]
      ∧ (GoEchoApiMongodb.DeleteEmployeeByID drv req).2 = [Call.DeleteOne Document.empty]
      ∧ (GoMongodbApi.UpdateEmployeeById drv req).2
          = [Call.UpdateOne Document.empty (marshal (decodeInto Employee.zero req.body.fields))]
      ∧ (req.body.failed = false → (GoEchoApiMongodb.UpdateEmployeeById drv req).2
          = [Call.UpdateOne Document.empty (marshal (decodeInto Employee.zero req.body.fields))])
      ∧ (∀ e, drv.findOne Document.empty = Except.ok e →
          (GoMongodbApi.GetEmployeeByID drv req).1 = Outcome.returned (Reply.employee 200 e)
            ∧ (GoEchoApiMongodb.GetEmployeeByID drv req).1
                = Outcome.returned (Reply.employee 200 e))
      ∧ (∀ text, drv.findOne Document.empty = Except.error text →
          (GoMongodbApi.GetEmployeeByID drv req).1 = Outcome.returned (Reply.message 500 text)
            ∧ (GoEchoApiMongodb.GetEmployeeByID drv req).1
                = Outcome.returned (Reply.error text))
      ∧ (∀ r, drv.deleteOne Document.empty = Except.ok r →
          (GoMongodbApi.DeleteEmployeeByID drv req).1
              = Outcome.returned (Reply.deleteResult 200 r)
            ∧ (GoEchoApiMongodb.DeleteEmployeeByID drv req).1
                = Outcome.returned (Reply.res 200
                    { ID := NilObjectID, Message := "Employee is successfully deleted!!!" }))
      ∧ (∀ text, drv.deleteOne Document.empty = Except.error text →
          (GoMongodbApi.DeleteEmployeeByID drv req).1
              = Outcome.returned (Reply.message 500 text)
            ∧ (GoEchoApiMongodb.DeleteEmployeeByID drv req).1
                = Outcome.returned (Reply.error text))
      ∧ (∀ r, drv.updateOne Document.empty
            (marshal (decodeInto Employee.zero req.body.fields)) = Except.ok r →
          (GoMongodbApi.UpdateEmployeeById drv req).1
              = Outcome.returned (Reply.updateResult 200 r)
            ∧ (req.body.failed = false → (GoEchoApiMongodb.UpdateEmployeeById drv req).1
                = Outcome.returned (Reply.updateResult 200 r)))
      ∧ (∀ text, drv.updateOne Document.empty
            (marshal (decodeInto Employee.zero req.body.fields)) = Except.error text →
          (GoMongodbApi.UpdateEmployeeById drv req).1
              = Outcome.returned (Reply.message 500 text)
            ∧ (req.body.failed = false → (GoEchoApiMongodb.UpdateEmployeeById drv req).1
                = Outcome.returned (Reply.error text)))
      ∧ (req.body.failed = true → GoEchoApiMongodb.UpdateEmployeeById drv req
          = (Outcome.returned Reply.bindError, [])) := by
  have h0 : (ObjectIDFromHex req.param).1 = NilObjectID :=
    ObjectIDFromHex_invalid_value req.param hbad
  refine ⟨?_, ?_, ?_, ?_, ?_, ?_, ?_, ?_, ?_, ?_, ?_, ?_, ?_⟩
  · simp only [GoMongodbApi.GetEmployeeByID, hup, h0, marshal_zero_filter]
    cases drv.findOne Document.empty <;> simp
  · simp only [GoEchoApiMongodb.GetEmployeeByID, hup, h0, marshal_zero_filter]
    cases drv.findOne Document.empty <;> simp
  · simp only [GoMongodbApi.DeleteEmployeeByID, hup, h0, marshal_zero_filter]
    cases drv.deleteOne Document.empty <;> simp
  · simp only [GoEchoApiMongodb.DeleteEmployeeByID, hup, h0, marshal_zero_filter]
    cases drv.deleteOne Document.empty <;> simp
  · simp only [GoMongodbApi.UpdateEmployeeById, hup, h0, marshal_zero_filter]
    cases drv.updateOne Document.empty (marshal (decodeInto Employee.zero req.body.fields))
      <;> simp
  · intro hok
    simp only [GoEchoApiMongodb.UpdateEmployeeById, hup, h0, marshal_zero_filter, hok]
    cases drv.updateOne Document.empty (marshal (decodeInto Employee.zero req.body.fields))
      <;> simp
  · intro e he
    constructor
    · simp [GoMongodbApi.GetEmployeeByID, hup, h0, marshal_zero_filter, he]
    · simp [GoEchoApiMongodb.GetEmployeeByID, hup, h0, marshal_zero_filter, he]
  · intro text he
    constructor
    · simp [GoMongodbApi.GetEmployeeByID, hup, h0, marshal_zero_filter, he]
    · simp [GoEchoApiMongodb.GetEmployeeByID, hup, h0, marshal_zero_filter, he]
  · intro r hr
    constructor
    · simp [GoMongodbApi.DeleteEmployeeByID, hup, h0, marshal_zero_filter, hr]
    · simp [GoEchoApiMongodb.DeleteEmployeeByID, hup, h0, marshal_zero_filter, hr]
  · intro text hr
    constructor
    · simp [GoMongodbApi.DeleteEmployeeByID, hup, h0, marshal_zero_filter, hr]
    · simp [GoEchoApiMongodb.DeleteEmployeeByID, hup, h0, marshal_zero_filter, hr]
  · intro r hr
    constructor
    · simp [GoMongodbApi.UpdateEmployeeById, hup, h0, marshal_zero_filter, hr]
    · intro hok
      simp [GoEchoApiMongodb.UpdateEmployeeById, hup, h0, marshal_zero_filter, hr, hok]
  · intro text hr
    constructor
    · simp [GoMongodbApi.UpdateEmployeeById, hup, h0, marshal_zero_filter, hr]
    · intro hok
      simp [GoEchoApiMongodb.UpdateEmployeeById, hup, h0, marshal_zero_filter, hr, hok]
  · intro hfail
    simp [GoEchoApiMongodb.UpdateEmployeeById, hup, hfail]

theorem invalid_hex_id_still_calls_witness :
    (GoMongodbApi.GetEmployeeByID Driver.sample { param := "12345", body := Body.sample }).2
        = [Call.FindOne Document.empty]
      ∧ (GoEchoApiMongodb.DeleteEmployeeByID Driver.sample
          { param := "12345", body := Body.sample }).1
        = Outcome.returned (Reply.res 200
            { ID := NilObjectID, Message := "Employee is successfully deleted!!!" })
      ∧ (GoMongodbApi.UpdateEmployeeById Driver.sample
          { param := "12345", body := Body.sample }).1
        = Outcome.returned (Reply.updateResult 200
            { MatchedCount := 1, ModifiedCount := 1, UpsertedCount := 0 }) :=
  ⟨(invalid_hex_id_still_calls Driver.sample { param := "12345", body := Body.sample } rfl
      (by decide)).1,
    ((invalid_hex_id_still_calls Driver.sample { param := "12345", body := Body.sample } rfl
      (by decide)).2.2.2.2.2.2.2.2.1 { DeletedCount := 1 } rfl).2,
    ((invalid_hex_id_still_calls Driver.sample { param := "12345", body := Body.sample } rfl
      (by decide)).2.2.2.2.2.2.2.2.2.2.1
        { MatchedCount := 1, ModifiedCount := 1, UpsertedCount := 0 } rfl).1⟩

/-- C18: evaluation at the failing input. The backend's `InsertOne` returns an error and no
result; `AddEmployee` of both variants issues the call and then panics on reading
`InsertedID` from the nil result. -/
theorem AddEmployee_insert_error_panics :
    (Driver.insertFails.insertOne (marshal (decodeInto Employee.zero Body.sample.fields)))
        = { result := none, err := some "write exception" }
      ∧ GoMongodbApi.AddEmployee Driver.insertFails { param := "", body := Body.sample }
        = (Outcome.panicked,
            [Call.InsertOne (marshal (decodeInto Employee.zero Body.sample.fields))])
      ∧ GoEchoApiMongodb.AddEmployee Driver.insertFails { param := "", body := Body.sample }
        = (Outcome.panicked,
            [Call.InsertOne (marshal (decodeInto Employee.zero Body.sample.fields))]) := by
  decide

/-- C19, counterexample: the body supplies the name with the empty string and the level
`L2`; the `$set` document that `UpdateEmployeeById` sends, in both variants, has the level
only: the name, although present in the body, is left out. -/
theorem set_document_counterexample :
    Body.sample.fields.name = some ""
      ∧ (GoMongodbApi.UpdateEmployeeById Driver.sample
          { param := "0102030405060708090a0b0c", body := Body.sample }).2
        = [Call.UpdateOne
            { _id := some [1, 2, 3, 4, 5, 6, 7, 8, 9, 10, 11, 12], name := none,
              department := none, level := none, description := none }
            { _id := none, name := none, department := none, level := some "L2",
              description := none }]
      ∧ (GoEchoApiMongodb.UpdateEmployeeById Driver.sample
          { param := "0102030405060708090a0b0c", body := Body.sample }).2
        = [Call.UpdateOne
            { _id := some [1, 2, 3, 4, 5, 6, 7, 8, 9, 10, 11, 12], name := none,
              department := none, level := none, description := none }
            { _id := none, name := none, department := none, level := some "L2",
              description := none }] := by
  decide

/-- C19, amended: in the document-store variants, for every update request whose body
decodes, the `$set` document that `UpdateEmployeeById` sends contains exactly the fields that
the body supplies with a value other than the zero value, each with that value; a field
absent from the body and a field present with the empty string are both left out. -/
theorem set_document_has_nonempty_fields (drv : Driver) (req : Request)
    (hup : drv.up = true) (hok : req.body.failed = false) :
    (GoMongodbApi.UpdateEmployeeById drv req).2
        = [Call.UpdateOne (marshal { Employee.zero with ID := (ObjectIDFromHex req.param).1 })
            { _id := req.body.fields.id.filter (fun v => decide (v ≠ NilObjectID)),
              name := req.body.fields.name.filter (fun v => decide (v ≠ "")),
              department := req.body.fields.department.filter (fun v => decide (v ≠ "")),
              level := req.body.fields.level.filter (fun v => decide (v ≠ "")),
              description := req.body.fields.description.filter (fun v => decide (v ≠ "")) }]
      ∧ (GoEchoApiMongodb.UpdateEmployeeById drv req).2
          = (GoMongodbApi.UpdateEmployeeById drv req).2 := by
  have hg : (GoMongodbApi.UpdateEmployeeById drv req).2
      = [Call.UpdateOne (marshal { Employee.zero with ID := (ObjectIDFromHex req.param).1 })
          (marshal (decodeInto Employee.zero req.body.fields))] := by
    simp only [GoMongodbApi.UpdateEmployeeById, hup]
    cases drv.updateOne (marshal { Employee.zero with ID := (ObjectIDFromHex req.param).1 })
      (marshal (decodeInto Employee.zero req.body.fields)) <;> simp
  have he : (GoEchoApiMongodb.UpdateEmployeeById drv req).2
      = [Call.UpdateOne (marshal { Employee.zero with ID := (ObjectIDFromHex req.param).1 })
          (marshal (decodeInto Employee.zero req.body.fields))] := by
    simp only [GoEchoApiMongodb.UpdateEmployeeById, hup, hok]
    cases drv.updateOne (marshal { Employee.zero with ID := (ObjectIDFromHex req.param).1 })
      (marshal (decodeInto Employee.zero req.body.fields)) <;> simp
  refine ⟨?_, by rw [hg, he]⟩
  rw [hg, marshal_decodeInto]

theorem set_document_has_nonempty_fields_witness :
    (GoEchoApiMongodb.UpdateEmployeeById Driver.sample
        { param := "0102030405060708090a0b0c", body := Body.sample }).2
      = (GoMongodbApi.UpdateEmployeeById Driver.sample
          { param := "0102030405060708090a0b0c", body := Body.sample }).2 :=
  (set_document_has_nonempty_fields Driver.sample
    { param := "0102030405060708090a0b0c", body := Body.sample } rfl rfl).2

end Mongo

end GoTraining
